import Mathlib

/-!
# Wallet lookup pipeline (`src/utils/solanaUtils.js`)

A shallow embedding of the address validation, the domain registry and the
fetch pipeline with RPC endpoint failover, followed by the properties proved
about them.

Conventions of the embedding
* A JavaScript string is a Lean `String`; `jsLength` counts UTF-16 code units
  as `String.prototype.length` does.
* A thrown value is a `JsError` (its `message` property and its `String(..)`
  form); a function that may throw returns `Except JsError _`.
* The module-level variables `currentEndpointIndex` and `connection` are the
  explicit `State`; the responses of the RPC endpoints are an explicit
  `Network` argument.
-/

namespace SolanaUtils

/-! ## JavaScript string primitives -/

/-- Number of UTF-16 code units of one code point. -/
def utf16Units (c : Char) : Nat := if c.toNat < 0x10000 then 1 else 2

/-- The `length` property of a JavaScript string: its number of UTF-16 code units. -/
def jsLength (s : String) : Nat := (s.data.map utf16Units).sum

/-- Code points removed by `String.prototype.trim`: ECMAScript WhiteSpace and
LineTerminator. -/
def whiteSpaceCodes : List Nat :=
  [0x09, 0x0A, 0x0B, 0x0C, 0x0D, 0x20, 0xA0, 0x1680, 0x2000, 0x2001, 0x2002, 0x2003,
   0x2004, 0x2005, 0x2006, 0x2007, 0x2008, 0x2009, 0x200A, 0x2028, 0x2029, 0x202F,
   0x205F, 0x3000, 0xFEFF]

/-- Whether `c` is stripped by `trim`. -/
def isWhiteSpace (c : Char) : Bool := whiteSpaceCodes.contains c.toNat

/-- The method `String.prototype.trim`, on code points. -/
def trimChars (cs : List Char) : List Char :=
  ((cs.dropWhile isWhiteSpace).reverse.dropWhile isWhiteSpace).reverse

/-- The method `String.prototype.trim`. -/
def trim (s : String) : String := ⟨trimChars s.data⟩

/-- The method `String.prototype.endsWith`. -/
def endsWith (s suffix : String) : Bool := suffix.data.isSuffixOf s.data

/-- Whether `sub` occurs in `cs` as a contiguous block. -/
def includesChars : List Char → List Char → Bool
  | [], sub => sub.isEmpty
  | c :: cs, sub => sub.isPrefixOf (c :: cs) || includesChars cs sub

/-- The method `String.prototype.includes`. -/
def includes (s sub : String) : Bool := includesChars s.data sub.data

/-- Lower-case form of one code point. ASCII letters are folded; the two code
points outside ASCII whose lower-case form contains an ASCII letter (KELVIN SIGN
and LATIN CAPITAL LETTER I WITH DOT ABOVE) are mapped as Unicode prescribes. Every
other code point outside ASCII is left as it is: its lower-case form is not
ASCII either, and this program only compares lower-cased text with ASCII text. -/
def lowerChar (c : Char) : List Char :=
  if c.toNat = 0x212A then ['k']
  else if c.toNat = 0x0130 then ['i', Char.ofNat 0x0307]
  else [c.toLower]

/-- The method `String.prototype.toLowerCase`. -/
def toLowerCase (s : String) : String := ⟨s.data.flatMap lowerChar⟩

/-! ## Thrown values -/

/-- A thrown JavaScript value: its `message` property (`none` when it has none)
and the text `String(value)` gives. -/
structure JsError where
  message : Option String
  text : String
  deriving DecidableEq, Repr

/-- The value `new Error(msg)`. -/
def mkError (msg : String) : JsError :=
  ⟨some msg, if msg = "" then "Error" else "Error: " ++ msg⟩

/-- Line 172 of the source: `(error && error.message) ? error.message : String(error)`. -/
def errorMessage (error : JsError) : String :=
  match error.message with
  | some m => if m ≠ "" then m else error.text
  | none => error.text

/-- Text a template literal prints for `error.message`. -/
def messageText (error : JsError) : String :=
  match error.message with
  | some m => m
  | none => "undefined"

/-! ## Base58 and public keys (packages `bs58` and `@solana/web3.js`) -/

/-- The Bitcoin base58 alphabet used by `bs58`. -/
def ALPHABET : String := "123456789ABCDEFGHJKLMNPQRSTUVWXYZabcdefghijkmnopqrstuvwxyz"

/-- Value of a base58 character, `none` outside the alphabet. -/
def base58Digit (c : Char) : Option Nat :=
  let i := ALPHABET.data.indexOf c
  if i < 58 then some i else none

/-- Values of a list of base58 characters, `none` if one is outside the alphabet. -/
def base58Digits : List Char → Option (List Nat)
  | [] => some []
  | c :: cs =>
    match base58Digit c, base58Digits cs with
    | some d, some ds => some (d :: ds)
    | _, _ => none

/-- Number written by big-endian digits in base `b`. -/
def ofDigitsBE (b : Nat) (ds : List Nat) : Nat := ds.foldl (fun acc d => acc * b + d) 0

/-- Worker of `toDigitsBE`: `fuel` bounds the number of digits produced. -/
def toDigitsAux (b : Nat) : Nat → Nat → List Nat → List Nat
  | 0, _, acc => acc
  | fuel + 1, n, acc => if n = 0 then acc else toDigitsAux b fuel (n / b) (n % b :: acc)

/-- Big-endian digits of `n` in base `b`, without leading zeros (`[]` for 0). -/
def toDigitsBE (b n : Nat) : List Nat := toDigitsAux b n n []

/-- Modelled from the spec: `decode` of the external package `bs58`, which is not
under src/. Standard base58: each leading `1` is one zero byte, the remaining
characters are the big-endian base-58 digits of a number written out in
as few bytes as possible; a character outside the alphabet makes it throw
`Non-base58 character`. -/
def bs58decode (s : String) : Except JsError (List Nat) :=
  let zeroes := (s.data.takeWhile (· == '1')).length
  match base58Digits (s.data.dropWhile (· == '1')) with
  | none => .error (mkError "Non-base58 character")
  | some ds => .ok (List.replicate zeroes 0 ++ toDigitsBE 256 (ofDigitsBE 58 ds))

/-- Modelled from the spec: `encode` of the external package `bs58`, the inverse
direction: each leading zero byte is one `1`, the rest is the number in base 58. -/
def bs58encode (bytes : List Nat) : String :=
  let zeroes := (bytes.takeWhile (· == 0)).length
  ⟨List.replicate zeroes '1' ++
    (toDigitsBE 58 (ofDigitsBE 256 bytes)).map (fun d => ALPHABET.data.getD d '1')⟩

/-- A JavaScript value that `knownDomains[key]` can produce: a registry string,
or a member that the object literal inherits from `Object.prototype`. -/
inductive JsValue where
  | str (s : String)
  | inherited (name : String)
  deriving DecidableEq, Repr

/-- The class `PublicKey` of `@solana/web3.js`: the key as a big number `_bn`. -/
structure PublicKey where
  bn : Nat
  deriving DecidableEq, Repr

/-- The constant `PUBLIC_KEY_LENGTH` of `@solana/web3.js`. -/
def PUBLIC_KEY_LENGTH : Nat := 32

/-- Modelled from the spec: the constructor `new PublicKey(value)` of the external
package `@solana/web3.js`, which is not under src/. A string is base58-decoded and
must give exactly 32 bytes, otherwise `Invalid public key input` is thrown (a
failure of the decoding itself is thrown as it is). A value that is not a string
is outside this model and reported as a failure; `fetchWalletInfo` never passes one
(see `resolveSNSDomain_str_of_endsWith`). -/
def PublicKey.new : JsValue → Except JsError PublicKey
  | .str value =>
    match bs58decode value with
    | .error e => .error e
    | .ok decoded =>
      if decoded.length ≠ PUBLIC_KEY_LENGTH then .error (mkError "Invalid public key input")
      else
        let bn := ofDigitsBE 256 decoded
        if (toDigitsBE 256 bn).length > PUBLIC_KEY_LENGTH then
          .error (mkError "Invalid public key input")
        else .ok ⟨bn⟩
  | .inherited _ => .error ⟨none, "unsupported key input"⟩

/-- The method `toBytes`: the number as 32 big-endian bytes, zero-padded on the left. -/
def PublicKey.toBytes (k : PublicKey) : List Nat :=
  let b := toDigitsBE 256 k.bn
  List.replicate (PUBLIC_KEY_LENGTH - b.length) 0 ++ b

/-- The method `toBase58`. -/
def PublicKey.toBase58 (k : PublicKey) : String := bs58encode k.toBytes

/-! ## Address validation (lines 29-72) -/

/-- The object returned by `validateSolanaAddress`; `isSNS` is `none` where the
returned literal has no such property. -/
structure ValidationResult where
  isValid : Bool
  error : Option String
  isSNS : Option Bool
  deriving DecidableEq, Repr

/-- The function `validateSolanaAddress` (lines 29-72). -/
def validateSolanaAddress (address : String) : ValidationResult :=
  if address = "" ∨ trim address = "" then
    ⟨false, some "Address cannot be empty", none⟩
  else
    let trimmedAddress := trim address
    if endsWith trimmedAddress ".sol" then
      ⟨true, none, some true⟩
    else if jsLength trimmedAddress < 32 ∨ jsLength trimmedAddress > 44 then
      ⟨false, some ("Invalid address length. Expected 32-44 characters, got "
        ++ toString (jsLength trimmedAddress)), none⟩
    else
      match bs58decode trimmedAddress with
      | .error _ => ⟨false, some "not a valid sol address⛔", none⟩
      | .ok decoded =>
        if decoded.length ≠ 32 then
          ⟨false, some ("Invalid address format. Decoded length should be 32 bytes, got "
            ++ toString decoded.length), none⟩
        else
          match PublicKey.new (.str trimmedAddress) with
          | .error _ => ⟨false, some "not a valid sol address⛔", none⟩
          | .ok _ => ⟨true, none, some false⟩

/-! ## Domain registry (lines 79-96) -/

/-- The object literal `knownDomains` (lines 81-85). -/
def knownDomains : List (String × String) :=
  [("toly.sol", "5tzFkiKscXHK5ZXCGbXZxdw7gTjjD1mBwuoFbhUvuAi9"),
   ("shaq.sol", "GThUX1Atko4tqhN2NaiTazWSeFWMuiUvfFnyJyUghFMJ"),
   ("mccann.sol", "7xKXtg2CW87d97TXJSDpbD5jBkheTqA83TZRuJosgAsU")]

/-- Property names every object literal inherits from `Object.prototype`; all of
them hold a function or an object, hence a truthy value. -/
def objectPrototypeKeys : List String :=
  ["constructor", "__defineGetter__", "__defineSetter__", "hasOwnProperty",
   "__lookupGetter__", "__lookupSetter__", "isPrototypeOf", "propertyIsEnumerable",
   "toString", "valueOf", "__proto__", "toLocaleString"]

/-- The property read `knownDomains[key]`: an own property first, then the
prototype chain; `none` is `undefined`. -/
def knownDomainsGet (key : String) : Option JsValue :=
  match knownDomains.lookup key with
  | some address => some (.str address)
  | none => if objectPrototypeKeys.contains key then some (.inherited key) else none

/-- The function `resolveSNSDomain` (lines 79-96). Every value `knownDomainsGet`
finds is truthy. -/
def resolveSNSDomain (domain : String) : Except JsError JsValue :=
  let normalizedDomain := trim (toLowerCase domain)
  match knownDomainsGet normalizedDomain with
  | some v => .ok v
  | none => .error (mkError
      "SNS domain resolution not available for this domain. Please use a public key address.")

/-! ## Endpoint pool and cursor (lines 5-22) -/

/-- The array `RPC_ENDPOINTS` (lines 5-11); the first entry is the configured
endpoint `import.meta.env.VITE_SOLANA_RPC_ENDPOINT` when that is set and not empty. -/
def RPC_ENDPOINTS (VITE_SOLANA_RPC_ENDPOINT : Option String) : List String :=
  [(match VITE_SOLANA_RPC_ENDPOINT with
    | some url => if url ≠ "" then url else "https://api.mainnet-beta.solana.com"
    | none => "https://api.mainnet-beta.solana.com"),
   "https://solana-api.projectserum.com",
   "https://solana-mainnet.g.alchemy.com/v2/demo"]

/-- The module-level mutable state. The variable `connection` is assigned at
lines 14 and 19 only, each time to `new Connection(RPC_ENDPOINTS[currentEndpointIndex])`,
so it is determined by `currentEndpointIndex`. -/
structure State where
  currentEndpointIndex : Nat
  deriving DecidableEq, Repr

/-- The state after module initialisation (line 13). -/
def State.initial : State := ⟨0⟩

/-- The function `switchToNextEndpoint` (lines 17-22); `endpoints` is `RPC_ENDPOINTS`. -/
def switchToNextEndpoint (endpoints : List String) (s : State) : State :=
  ⟨(s.currentEndpointIndex + 1) % endpoints.length⟩

/-! ## Chain queries -/

/-- One entry of the list `getSignaturesForAddress` returns. The field `err` is
`none` for `null`; an error object is given by its description, which is not
empty, and `some ""` is the empty string, the one value of the field other than
`null` that is falsy. -/
structure SignatureInfo where
  signature : String
  slot : Nat
  blockTime : Option Int
  err : Option String
  deriving DecidableEq, Repr

/-- One element of `transactions` in the returned object (lines 138-152). -/
structure TransactionSummary where
  signature : String
  blockTime : Option Int
  slot : Nat
  err : Option String
  success : Bool
  deriving DecidableEq, Repr

/-- The fields of the record `getAccountInfo` returns that the code reads. -/
structure AccountInfo where
  executable : Bool
  owner : PublicKey
  deriving DecidableEq, Repr

/-- A JavaScript number produced by the division `dividend / divisor` of two
integers: the IEEE-754 double nearest to their quotient. The rounding is not
modelled; the number is kept as the two operands of the division. -/
structure JsDivision where
  dividend : Nat
  divisor : Nat
  deriving DecidableEq, Repr

/-- The object `fetchWalletInfo` returns (lines 160-170). `balance` is the double
that the division of line 125 yields. -/
structure WalletInfo where
  address : String
  originalAddress : String
  balance : JsDivision
  balanceInLamports : Nat
  transactions : List TransactionSummary
  totalTransactions : Nat
  accountExists : Bool
  isExecutable : Bool
  owner : Option String
  deriving DecidableEq, Repr

/-- The four read operations of a `Connection`, each returning its result or the
value it throws. -/
structure Connection where
  getBalance : PublicKey → Except JsError Nat
  getSignaturesForAddress : PublicKey → Nat → Except JsError (List SignatureInfo)
  getTransaction : String → Except JsError Unit
  getAccountInfo : PublicKey → Except JsError (Option AccountInfo)

/-- What the endpoints answer: `net r e` is the behaviour of the connection to
endpoint number `e` during the attempt made at retry count `r`. -/
abbrev Network := Nat → Nat → Connection

/-- The constant `LAMPORTS_PER_SOL` of `@solana/web3.js`. -/
def LAMPORTS_PER_SOL : Nat := 1000000000

/-- Whether the value of an `err` field is truthy: not `null` and not the empty
string. -/
def truthy (err : Option String) : Bool :=
  match err with
  | none => false
  | some e => e ≠ ""

/-- The callback mapped over the signatures (lines 132-154): a failing detail
fetch is caught and recorded in the summary; `success` is `!sig.err`. -/
def transactionSummary (connection : Connection) (sig : SignatureInfo) : TransactionSummary :=
  match connection.getTransaction sig.signature with
  | .ok _ => ⟨sig.signature, sig.blockTime, sig.slot, sig.err, !truthy sig.err⟩
  | .error _ => ⟨sig.signature, sig.blockTime, sig.slot, some "Failed to fetch details", false⟩

/-- Lines 123-170: the chain queries against one connection and the assembly of
the result. -/
def chainQueries (connection : Connection) (publicKey : PublicKey) (address : String) :
    Except JsError WalletInfo :=
  match connection.getBalance publicKey with
  | .error e => .error e
  | .ok balance =>
    let balanceInSOL : JsDivision := ⟨balance, LAMPORTS_PER_SOL⟩
    match connection.getSignaturesForAddress publicKey 5 with
    | .error e => .error e
    | .ok signatures =>
      let transactions := (signatures.take 3).map (transactionSummary connection)
      match connection.getAccountInfo publicKey with
      | .error e => .error e
      | .ok accountInfo =>
        .ok {
          address := publicKey.toBase58
          originalAddress := address
          balance := balanceInSOL
          balanceInLamports := balance
          transactions := transactions
          totalTransactions := signatures.length
          accountExists := accountInfo.isSome
          isExecutable := match accountInfo with
            | some info => info.executable
            | none => false
          owner := match accountInfo with
            | some info => if info.owner.toBase58 ≠ "" then some info.owner.toBase58 else none
            | none => none }

/-! ## The fetch pipeline (lines 104-218) -/

/-- Lines 108-121: resolve a `.sol` domain and build the public key. -/
def resolveAndParse (address : String) : Except JsError PublicKey :=
  if endsWith address ".sol" then
    match resolveSNSDomain address with
    | .error error => .error (mkError ("Failed to resolve " ++ address ++ ": " ++ messageText error))
    | .ok resolvedAddress =>
      match PublicKey.new resolvedAddress with
      | .error error =>
        .error (mkError ("Failed to resolve " ++ address ++ ": " ++ messageText error))
      | .ok publicKey => .ok publicKey
  else
    PublicKey.new (.str address)

/-- The `try` block of `fetchWalletInfo` (lines 108-170) run against `connection`. -/
def tryBlock (connection : Connection) (address : String) : Except JsError WalletInfo :=
  match resolveAndParse address with
  | .error error => .error error
  | .ok publicKey => chainQueries connection publicKey address

/-- Endpoint indices the `try` block queries: the current one once the public key
is built (line 124 is reached), none otherwise. -/
def queriedEndpoints (address : String) (s : State) : List Nat :=
  match resolveAndParse address with
  | .error _ => []
  | .ok _ => [s.currentEndpointIndex]

/-- Result of one call of `fetchWalletInfo`: what it returns or throws, the module
state it leaves, and the endpoint indices it ran the chain queries against, in
order. -/
structure Outcome where
  result : Except JsError WalletInfo
  state : State
  attempts : List Nat

/-- Put the attempts of the current invocation before those of the recursive one. -/
def Outcome.after (log : List Nat) (o : Outcome) : Outcome :=
  { o with attempts := log ++ o.attempts }

/-- The function `fetchWalletInfo` (lines 104-218); `endpoints` is `RPC_ENDPOINTS`. -/
def fetchWalletInfo (endpoints : List String) (net : Network) (address : String)
    (retryCount : Nat) (s : State) : Outcome :=
  let maxRetries := endpoints.length
  let log := queriedEndpoints address s
  match tryBlock (net retryCount s.currentEndpointIndex) address with
  | .ok info => ⟨.ok info, s, log⟩
  | .error error =>
    let errorMessage := errorMessage error
    if includes errorMessage "Failed to resolve" then
      ⟨.error error, s, log⟩
    else if includes errorMessage "Invalid public key" then
      ⟨.error (mkError "Invalid wallet address format"), s, log⟩
    else if includes errorMessage "403" ∨ includes errorMessage "Access forbidden" then
      if _h : retryCount < maxRetries - 1 then
        (fetchWalletInfo endpoints net address (retryCount + 1)
          (switchToNextEndpoint endpoints s)).after log
      else
        ⟨.error (mkError
          "All RPC endpoints are currently unavailable. Please try again later or use your own RPC endpoint."),
          s, log⟩
    else if includes errorMessage "429" ∨ includes errorMessage "Too Many Requests" then
      if _h : retryCount < maxRetries - 1 then
        (fetchWalletInfo endpoints net address (retryCount + 1)
          (switchToNextEndpoint endpoints s)).after log
      else
        ⟨.error (mkError "Rate limit exceeded on all endpoints. Please try again in a moment."),
          s, log⟩
    else if includes (toLowerCase errorMessage) "failed to fetch" ∨
        includes (toLowerCase errorMessage) "network error" then
      if _h : retryCount < maxRetries - 1 then
        (fetchWalletInfo endpoints net address (retryCount + 1)
          (switchToNextEndpoint endpoints s)).after log
      else
        ⟨.error (mkError
          "Network error on all RPC endpoints. Please check your internet connection or configure a custom RPC endpoint."),
          s, log⟩
    else
      ⟨.error (mkError ("Failed to fetch wallet information: " ++ errorMessage)), s, log⟩
termination_by endpoints.length - retryCount
decreasing_by all_goals omega

/-! ## Vocabulary of the statements -/

/-- The three failure classes the `catch` block retries on another endpoint. -/
inductive RetryClass where
  | forbidden
  | rateLimited
  | network
  deriving DecidableEq, Repr

/-- The class the `catch` block (lines 175-214) puts a failure description in, the
tests taken in the order of the code; `none` when it does not retry. -/
def retryClass (errorMessage : String) : Option RetryClass :=
  if includes errorMessage "Failed to resolve" then none
  else if includes errorMessage "Invalid public key" then none
  else if includes errorMessage "403" ∨ includes errorMessage "Access forbidden" then
    some .forbidden
  else if includes errorMessage "429" ∨ includes errorMessage "Too Many Requests" then
    some .rateLimited
  else if includes (toLowerCase errorMessage) "failed to fetch" ∨
      includes (toLowerCase errorMessage) "network error" then
    some .network
  else none

/-- The message thrown when the retry budget is exhausted (lines 190, 201, 212). -/
def terminalMessage : RetryClass → String
  | .forbidden =>
    "All RPC endpoints are currently unavailable. Please try again later or use your own RPC endpoint."
  | .rateLimited => "Rate limit exceeded on all endpoints. Please try again in a moment."
  | .network =>
    "Network error on all RPC endpoints. Please check your internet connection or configure a custom RPC endpoint."

/-- Whether a failure description carries a marker of the given class: `403` or
`Access forbidden`; `429` or `Too Many Requests`; `failed to fetch` or `network
error` in any letter case. -/
def hasMarker (c : RetryClass) (errorMessage : String) : Bool :=
  match c with
  | .forbidden => includes errorMessage "403" || includes errorMessage "Access forbidden"
  | .rateLimited => includes errorMessage "429" || includes errorMessage "Too Many Requests"
  | .network => includes (toLowerCase errorMessage) "failed to fetch" ||
      includes (toLowerCase errorMessage) "network error"

/-- Whether the result of the `try` block is a failure that the `catch` block
answers by moving to the next endpoint (budget permitting). -/
def retryableFailure (r : Except JsError WalletInfo) : Bool :=
  match r with
  | .error error => (retryClass (errorMessage error)).isSome
  | .ok _ => false

/-- A connection on which every query throws `error`. -/
def Connection.failing (error : JsError) : Connection where
  getBalance := fun _ => .error error
  getSignaturesForAddress := fun _ _ => .error error
  getTransaction := fun _ => .error error
  getAccountInfo := fun _ => .error error

/-- A connection to an endpoint that knows nothing about the account: zero balance,
no signatures, no account record. -/
def Connection.empty : Connection where
  getBalance := fun _ => .ok 0
  getSignaturesForAddress := fun _ _ => .ok []
  getTransaction := fun _ => .ok ()
  getAccountInfo := fun _ => .ok none

/-- A network on which every endpoint rejects every query with `error`. -/
def Network.failing (error : JsError) : Network := fun _ _ => Connection.failing error

/-- A network whose first `k` attempts are rejected with `error`; later ones answer. -/
def Network.failingFirst (k : Nat) (error : JsError) : Network :=
  fun r _ => if r < k then Connection.failing error else Connection.empty

/-- A connection that answers every query: the given balance, the given
signature list (cut to the requested limit) and account record; the detail fetch
throws `detailError` for the signatures listed in `failingDetails`. -/
def Connection.serving (balance : Nat) (signatures : List SignatureInfo)
    (failingDetails : List String) (detailError : JsError) (account : Option AccountInfo) :
    Connection where
  getBalance := fun _ => .ok balance
  getSignaturesForAddress := fun _ limit => .ok (signatures.take limit)
  getTransaction := fun sig => if failingDetails.contains sig then .error detailError else .ok ()
  getAccountInfo := fun _ => .ok account

/-- Five signature entries, most recent first; the second one records a failed
transaction. -/
def sampleSignatures : List SignatureInfo :=
  [⟨"sigE", 105, some 1700000500, none⟩,
   ⟨"sigD", 104, some 1700000400, some "InstructionError"⟩,
   ⟨"sigC", 103, none, none⟩,
   ⟨"sigB", 102, some 1700000200, none⟩,
   ⟨"sigA", 101, some 1700000100, none⟩]

/-- Three signature entries; the `err` field of the third is the empty string. -/
def sampleSignaturesEmptyErr : List SignatureInfo :=
  [⟨"sigE", 105, some 1700000500, none⟩,
   ⟨"sigD", 104, some 1700000400, some "InstructionError"⟩,
   ⟨"sigC", 103, none, some ""⟩]

/-! ## Display helpers (lines 226-240)

`slice` and `length` work on UTF-16 code units and `slice` may cut a surrogate
pair in two, so these two functions are modelled on the code units of the text. -/

/-- UTF-16 code units of one code point. -/
def charUnits (c : Char) : List Nat :=
  if c.toNat < 0x10000 then [c.toNat]
  else [0xD800 + (c.toNat - 0x10000) / 0x400, 0xDC00 + (c.toNat - 0x10000) % 0x400]

/-- UTF-16 code units of a string. -/
def toUnits (s : String) : List Nat := s.data.flatMap charUnits

/-- The method `String.prototype.slice(start, end)` on code units, `stop = none`
for an omitted `end`: a negative index counts from the end of the text, and both
indices are clamped to the text. -/
def jsSlice (s : List Nat) (start : Int) (stop : Option Int) : List Nat :=
  let len : Int := s.length
  let first : Int := if start < 0 then max (len + start) 0 else min start len
  let final : Int :=
    match stop with
    | none => len
    | some e => if e < 0 then max (len + e) 0 else min e len
  (s.drop first.toNat).take (final - first).toNat

/-- The function `formatSignature` (lines 226-229); `length = none` is an omitted
argument, which takes the default 8. The argument of the second `slice` is
`-length`, and `-0` is `0`. -/
def formatSignature (signature : List Nat) (length : Option Nat) : List Nat :=
  let length := length.getD 8
  if signature = [] ∨ signature.length ≤ length * 2 then signature
  else jsSlice signature 0 (some (length : Int)) ++ toUnits "..." ++
    jsSlice signature (-(length : Int)) none

/-- The function `formatAddress` (lines 237-240); the default of `length` is 6. -/
def formatAddress (address : List Nat) (length : Option Nat) : List Nat :=
  let length := length.getD 6
  if address = [] ∨ address.length ≤ length * 2 then address
  else jsSlice address 0 (some (length : Int)) ++ toUnits "..." ++
    jsSlice address (-(length : Int)) none

/-! ## Properties -/

theorem fetchWalletInfo_unfold (endpoints : List String) (net : Network) (address : String)
    (retryCount : Nat) (s : State) :
    fetchWalletInfo endpoints net address retryCount s =
      match tryBlock (net retryCount s.currentEndpointIndex) address with
      | .ok info => ⟨.ok info, s, queriedEndpoints address s⟩
      | .error error =>
        if includes (errorMessage error) "Failed to resolve" then
          ⟨.error error, s, queriedEndpoints address s⟩
        else if includes (errorMessage error) "Invalid public key" then
          ⟨.error (mkError "Invalid wallet address format"), s, queriedEndpoints address s⟩
        else
          match retryClass (errorMessage error) with
          | some c =>
            if retryCount < endpoints.length - 1 then
              (fetchWalletInfo endpoints net address (retryCount + 1)
                (switchToNextEndpoint endpoints s)).after (queriedEndpoints address s)
            else ⟨.error (mkError (terminalMessage c)), s, queriedEndpoints address s⟩
          | none =>
            ⟨.error (mkError ("Failed to fetch wallet information: " ++ errorMessage error)),
              s, queriedEndpoints address s⟩ := by
  rw [fetchWalletInfo]
  cases hT : tryBlock (net retryCount s.currentEndpointIndex) address with
  | ok info => rfl
  | error error =>
    simp only [retryClass]
    split_ifs <;> rfl

/-! ### Strings -/

theorem dropWhile_append_of_head {p : Char → Bool} (xs ys : List Char)
    (h : ∀ y, ys.head? = some y → p y = false) (hne : ys ≠ []) :
    (xs ++ ys).dropWhile p = xs.dropWhile p ++ ys := by
  induction xs with
  | nil =>
    cases ys with
    | nil => exact absurd rfl hne
    | cons y ys => simp [List.dropWhile_cons, h y rfl]
  | cons x xs ih =>
    by_cases hx : p x = true
    · simp [List.dropWhile_cons, hx, ih]
    · simp [List.dropWhile_cons, hx]

theorem trimChars_append (xs suf : List Char) (hne : suf ≠ [])
    (hsuf : ∀ c ∈ suf, isWhiteSpace c = false) :
    trimChars (xs ++ suf) = xs.dropWhile isWhiteSpace ++ suf := by
  have h1 : (xs ++ suf).dropWhile isWhiteSpace = xs.dropWhile isWhiteSpace ++ suf := by
    apply dropWhile_append_of_head _ _ _ hne
    intro y hy
    exact hsuf y (List.mem_of_mem_head? hy)
  have hne' : suf.reverse ≠ [] := by simpa using hne
  have h2 : (suf.reverse ++ (xs.dropWhile isWhiteSpace).reverse).dropWhile isWhiteSpace
      = suf.reverse ++ (xs.dropWhile isWhiteSpace).reverse := by
    cases hr : suf.reverse with
    | nil => exact absurd hr hne'
    | cons y ys =>
      have hy : isWhiteSpace y = false := by
        apply hsuf
        have : y ∈ suf.reverse := by rw [hr]; exact List.mem_cons_self _ _
        simpa using this
      simp [List.dropWhile_cons, hy]
  unfold trimChars
  rw [h1, List.reverse_append, h2]
  simp

theorem trimChars_eq_self (cs : List Char) (h : ∀ c ∈ cs, isWhiteSpace c = false) :
    trimChars cs = cs := by
  cases cs with
  | nil => rfl
  | cons c cs =>
    have := trimChars_append [] (c :: cs) (by simp) h
    simpa using this

theorem endsWith_iff (s suffix : String) :
    endsWith s suffix = true ↔ ∃ xs, s.data = xs ++ suffix.data := by
  unfold endsWith
  rw [List.isSuffixOf_iff_suffix]
  constructor
  · rintro ⟨xs, h⟩
    exact ⟨xs, h.symm⟩
  · rintro ⟨xs, h⟩
    exact ⟨xs, h.symm⟩

theorem endsWith_trim_sol (address : String) (h : endsWith address ".sol" = true) :
    endsWith (trim address) ".sol" = true := by
  obtain ⟨xs, hxs⟩ := (endsWith_iff _ _).1 h
  refine (endsWith_iff _ _).2 ⟨xs.dropWhile isWhiteSpace, ?_⟩
  show trimChars address.data = _
  rw [hxs]
  exact trimChars_append xs _ (by decide) (by decide)

theorem endsWith_toLowerCase_sol (address : String) (h : endsWith address ".sol" = true) :
    endsWith (toLowerCase address) ".sol" = true := by
  obtain ⟨xs, hxs⟩ := (endsWith_iff _ _).1 h
  refine (endsWith_iff _ _).2 ⟨xs.flatMap lowerChar, ?_⟩
  show address.data.flatMap lowerChar = _
  rw [hxs, List.flatMap_append]
  rfl

theorem ne_empty_of_endsWith_sol (s : String) (h : endsWith s ".sol" = true) : s ≠ "" := by
  rintro rfl
  exact absurd h (by decide)

theorem includesChars_append_left (xs cs sub : List Char) (h : includesChars cs sub = true) :
    includesChars (xs ++ cs) sub = true := by
  induction xs with
  | nil => simpa using h
  | cons x xs ih => simp [includesChars, ih]

theorem includesChars_self_append (sub rest : List Char) : includesChars (sub ++ rest) sub = true := by
  cases hs : sub ++ rest with
  | nil =>
    have : sub = [] := by
      cases sub with
      | nil => rfl
      | cons a l => simp at hs
    simp [includesChars, this]
  | cons c cs =>
    have : sub.isPrefixOf (c :: cs) = true := by
      rw [← hs, List.isPrefixOf_iff_prefix]
      exact List.prefix_append _ _
    simp [includesChars, this]

theorem includes_self_append (sub rest : String) : includes (sub ++ rest) sub = true := by
  unfold includes
  rw [String.data_append]
  exact includesChars_self_append _ _

/-! ### Resolution and parsing -/

theorem trim_ne_empty_of_endsWith_sol (s : String) (h : endsWith s ".sol" = true) :
    trim s ≠ "" :=
  ne_empty_of_endsWith_sol _ (endsWith_trim_sol s h)

theorem not_mem_objectPrototypeKeys (key : String) (h : endsWith key ".sol" = true) :
    objectPrototypeKeys.contains key = false := by
  have hall : ∀ k ∈ objectPrototypeKeys, endsWith k ".sol" = false := by decide
  cases hc : objectPrototypeKeys.contains key with
  | false => rfl
  | true =>
    have hmem : key ∈ objectPrototypeKeys := by simpa using hc
    have := hall key hmem
    rw [h] at this
    exact absurd this (by decide)

theorem endsWith_normalized (domain : String) (h : endsWith domain ".sol" = true) :
    endsWith (trim (toLowerCase domain)) ".sol" = true :=
  endsWith_trim_sol _ (endsWith_toLowerCase_sol _ h)

/-- On a `.sol` name the registry read never reaches `Object.prototype`: the
resolver returns a registry string or throws. -/
theorem resolveSNSDomain_str_of_endsWith (domain : String) (h : endsWith domain ".sol" = true)
    (v : JsValue) (hv : resolveSNSDomain domain = .ok v) : ∃ a, v = .str a := by
  unfold resolveSNSDomain knownDomainsGet at hv
  simp only [not_mem_objectPrototypeKeys _ (endsWith_normalized domain h)] at hv
  cases hl : knownDomains.lookup (trim (toLowerCase domain)) with
  | none => simp [hl] at hv
  | some a =>
    simp [hl] at hv
    exact ⟨a, hv.symm⟩

theorem resolveSNSDomain_not_found (domain : String) (h : endsWith domain ".sol" = true)
    (hreg : knownDomains.lookup (trim (toLowerCase domain)) = none) :
    resolveSNSDomain domain = .error (mkError
      "SNS domain resolution not available for this domain. Please use a public key address.") := by
  unfold resolveSNSDomain knownDomainsGet
  simp only [not_mem_objectPrototypeKeys _ (endsWith_normalized domain h), hreg]
  rfl

theorem errorMessage_mkError (msg : String) (h : msg ≠ "") : errorMessage (mkError msg) = msg := by
  simp [errorMessage, mkError, h]

theorem failed_to_resolve_ne_empty (rest : String) : "Failed to resolve " ++ rest ≠ "" := by
  intro h
  have := congrArg String.length h
  simp [String.length_append] at this
  exact absurd this.1 (by decide)

theorem includes_failed_to_resolve (rest : String) :
    includes (errorMessage (mkError ("Failed to resolve " ++ rest))) "Failed to resolve" = true := by
  rw [errorMessage_mkError _ (failed_to_resolve_ne_empty rest)]
  have : "Failed to resolve " ++ rest = "Failed to resolve" ++ (" " ++ rest) := by
    rw [← String.append_assoc]
    rfl
  rw [this]
  exact includes_self_append _ _

/-- A key that cannot be built from a raw address fails with one of the two
messages of the packages. -/
theorem PublicKey_new_str_error (value : String) (e : JsError)
    (h : PublicKey.new (.str value) = .error e) :
    e = mkError "Non-base58 character" ∨ e = mkError "Invalid public key input" := by
  unfold PublicKey.new at h
  cases hd : bs58decode value with
  | error e' =>
    left
    simp only [hd] at h
    unfold bs58decode at hd
    cases hb : base58Digits (value.data.dropWhile (· == '1')) with
    | none =>
      simp only [hb] at hd
      injection h with h
      injection hd with hd
      rw [← h, ← hd]
    | some ds => simp [hb] at hd
  | ok decoded =>
    right
    simp only [hd] at h
    split_ifs at h <;> (injection h with h; exact h.symm)

/-- A failure of resolution or parsing, whatever its cause, is thrown by the call
without any chain query and without touching the endpoint cursor. -/
theorem fetchWalletInfo_parse_error (endpoints : List String) (net : Network) (address : String)
    (retryCount : Nat) (s : State) (e : JsError) (h : resolveAndParse address = .error e) :
    fetchWalletInfo endpoints net address retryCount s =
      ⟨.error (if endsWith address ".sol" = true then e
          else if e = mkError "Invalid public key input" then mkError "Invalid wallet address format"
          else mkError ("Failed to fetch wallet information: " ++ errorMessage e)), s, []⟩ := by
  rw [fetchWalletInfo_unfold]
  have hq : queriedEndpoints address s = [] := by simp [queriedEndpoints, h]
  have ht : tryBlock (net retryCount s.currentEndpointIndex) address = .error e := by
    simp [tryBlock, h]
  rw [ht, hq]
  by_cases hsol : endsWith address ".sol" = true
  · have hinc : includes (errorMessage e) "Failed to resolve" = true := by
      unfold resolveAndParse at h
      simp only [hsol, if_true] at h
      cases hr : resolveSNSDomain address with
      | error e' =>
        simp only [hr] at h
        injection h with h
        rw [← h, String.append_assoc, String.append_assoc]
        exact includes_failed_to_resolve _
      | ok v =>
        simp only [hr] at h
        cases hp : PublicKey.new v with
        | error e' =>
          simp only [hp] at h
          injection h with h
          rw [← h, String.append_assoc, String.append_assoc]
          exact includes_failed_to_resolve _
        | ok pk => simp [hp] at h
    simp [hinc, hsol]
  · have h' : PublicKey.new (.str address) = .error e := by
      unfold resolveAndParse at h
      simpa [hsol] using h
    rcases PublicKey_new_str_error _ _ h' with rfl | rfl
    · have h1 : includes (errorMessage (mkError "Non-base58 character")) "Failed to resolve" = false := by
        decide
      have h2 : includes (errorMessage (mkError "Non-base58 character")) "Invalid public key" = false := by
        decide
      have h3 : retryClass (errorMessage (mkError "Non-base58 character")) = none := by decide
      have h4 : mkError "Non-base58 character" ≠ mkError "Invalid public key input" := by decide
      simp [h1, h2, h3, h4, hsol]
    · have h1 : includes (errorMessage (mkError "Invalid public key input")) "Failed to resolve" = false := by
        decide
      have h2 : includes (errorMessage (mkError "Invalid public key input")) "Invalid public key" = true := by
        decide
      simp [h1, h2, hsol]

/-! ### One invocation -/

theorem queriedEndpoints_ok {address : String} {pk : PublicKey} (s : State)
    (hp : resolveAndParse address = .ok pk) :
    queriedEndpoints address s = [s.currentEndpointIndex] := by
  simp [queriedEndpoints, hp]

theorem tryBlock_ok {address : String} {pk : PublicKey} (connection : Connection)
    (hp : resolveAndParse address = .ok pk) :
    tryBlock connection address = chainQueries connection pk address := by
  simp [tryBlock, hp]

theorem retryClass_isSome_not_includes (m : String) (h : (retryClass m).isSome = true) :
    includes m "Failed to resolve" = false ∧ includes m "Invalid public key" = false := by
  unfold retryClass at h
  by_cases h1 : includes m "Failed to resolve" = true
  · simp [h1] at h
  · by_cases h2 : includes m "Invalid public key" = true
    · simp [h1, h2] at h
    · exact ⟨by simpa using h1, by simpa using h2⟩

@[simp] theorem Outcome.after_result (log : List Nat) (o : Outcome) :
    (o.after log).result = o.result := rfl

@[simp] theorem Outcome.after_state (log : List Nat) (o : Outcome) :
    (o.after log).state = o.state := rfl

@[simp] theorem Outcome.after_attempts (log : List Nat) (o : Outcome) :
    (o.after log).attempts = log ++ o.attempts := rfl

theorem Outcome.after_nil (o : Outcome) : o.after [] = o := rfl

theorem Outcome.after_after (l₁ l₂ : List Nat) (o : Outcome) :
    (o.after l₂).after l₁ = o.after (l₁ ++ l₂) := by
  simp [Outcome.after]

theorem fetchWalletInfo_retry (endpoints : List String) (net : Network) (address : String)
    (retryCount : Nat) (s : State) (pk : PublicKey)
    (hp : resolveAndParse address = .ok pk)
    (hf : retryableFailure (chainQueries (net retryCount s.currentEndpointIndex) pk address) = true)
    (hr : retryCount < endpoints.length - 1) :
    fetchWalletInfo endpoints net address retryCount s =
      (fetchWalletInfo endpoints net address (retryCount + 1)
        (switchToNextEndpoint endpoints s)).after [s.currentEndpointIndex] := by
  rw [fetchWalletInfo_unfold, tryBlock_ok _ hp, queriedEndpoints_ok _ hp]
  cases hc : chainQueries (net retryCount s.currentEndpointIndex) pk address with
  | ok info => simp [hc, retryableFailure] at hf
  | error e =>
    simp only [hc, retryableFailure] at hf
    obtain ⟨h1, h2⟩ := retryClass_isSome_not_includes _ hf
    obtain ⟨c, hc'⟩ := Option.isSome_iff_exists.1 hf
    simp [h1, h2, hc', hr]

theorem fetchWalletInfo_exhausted (endpoints : List String) (net : Network) (address : String)
    (retryCount : Nat) (s : State) (pk : PublicKey) {e : JsError} {c : RetryClass}
    (hp : resolveAndParse address = .ok pk)
    (he : chainQueries (net retryCount s.currentEndpointIndex) pk address = .error e)
    (hc : retryClass (errorMessage e) = some c)
    (hr : ¬ retryCount < endpoints.length - 1) :
    fetchWalletInfo endpoints net address retryCount s =
      ⟨.error (mkError (terminalMessage c)), s, [s.currentEndpointIndex]⟩ := by
  rw [fetchWalletInfo_unfold, tryBlock_ok _ hp, queriedEndpoints_ok _ hp, he]
  obtain ⟨h1, h2⟩ := retryClass_isSome_not_includes _ (by rw [hc]; rfl)
  simp [h1, h2, hc, hr]

theorem fetchWalletInfo_stop (endpoints : List String) (net : Network) (address : String)
    (retryCount : Nat) (s : State) (pk : PublicKey)
    (hp : resolveAndParse address = .ok pk)
    (h : retryableFailure (chainQueries (net retryCount s.currentEndpointIndex) pk address) = false
      ∨ ¬ retryCount < endpoints.length - 1) :
    (fetchWalletInfo endpoints net address retryCount s).state = s ∧
    (fetchWalletInfo endpoints net address retryCount s).attempts = [s.currentEndpointIndex] := by
  rw [fetchWalletInfo_unfold, tryBlock_ok _ hp, queriedEndpoints_ok _ hp]
  cases hc : chainQueries (net retryCount s.currentEndpointIndex) pk address with
  | ok info => exact ⟨rfl, rfl⟩
  | error e =>
    by_cases h1 : includes (errorMessage e) "Failed to resolve" = true
    · simp [h1]
    · by_cases h2 : includes (errorMessage e) "Invalid public key" = true
      · simp [h1, h2]
      · cases hcl : retryClass (errorMessage e) with
        | none => simp [h1, h2, hcl]
        | some c =>
          have hr : ¬ retryCount < endpoints.length - 1 := by
            rcases h with h | h
            · simp [hc, retryableFailure, hcl] at h
            · exact h
          simp [h1, h2, hcl, hr]

/-! ### Endpoint rotation -/

theorem switch_index (endpoints : List String) (s : State) :
    (switchToNextEndpoint endpoints s).currentEndpointIndex =
      (s.currentEndpointIndex + 1) % endpoints.length := rfl

theorem switch_index_lt (endpoints : List String) (s : State) (hN : 0 < endpoints.length) :
    (switchToNextEndpoint endpoints s).currentEndpointIndex < endpoints.length :=
  Nat.mod_lt _ hN

theorem range_succ_map_rot (N c m : Nat) (hc : c < N) :
    c :: (List.range m).map (fun j => ((c + 1) % N + j) % N) =
      (List.range (m + 1)).map (fun j => (c + j) % N) := by
  rw [List.range_succ_eq_map, List.map_cons, List.map_map]
  congr 1
  · simp [Nat.mod_eq_of_lt hc]
  · apply List.map_congr_left
    intro j _
    simp only [Function.comp, Nat.mod_add_mod]
    congr 1
    omega

/-- After `k` retryable failures in a row, each followed by a retry, the call
continues at retry count `retryCount + k` with the cursor moved `k` places. -/
theorem fetchWalletInfo_retries (endpoints : List String) (net : Network) (address : String)
    (pk : PublicKey) (hp : resolveAndParse address = .ok pk) :
    ∀ (k retryCount : Nat) (s : State), s.currentEndpointIndex < endpoints.length →
      retryCount + k ≤ endpoints.length - 1 →
      (∀ j, j < k → retryableFailure (chainQueries
        (net (retryCount + j) ((s.currentEndpointIndex + j) % endpoints.length)) pk address) = true) →
      fetchWalletInfo endpoints net address retryCount s =
        (fetchWalletInfo endpoints net address (retryCount + k)
          ⟨(s.currentEndpointIndex + k) % endpoints.length⟩).after
          ((List.range k).map (fun j => (s.currentEndpointIndex + j) % endpoints.length)) := by
  intro k
  induction k with
  | zero =>
    intro r s hs _ _
    have : (⟨(s.currentEndpointIndex + 0) % endpoints.length⟩ : State) = s := by
      cases s
      simp at hs ⊢
      exact Nat.mod_eq_of_lt hs
    rw [this]
    rfl
  | succ k ih =>
    intro r s hs hk hall
    have hN : 0 < endpoints.length := by omega
    have h0 := hall 0 (by omega)
    simp only [Nat.add_zero, Nat.mod_eq_of_lt hs] at h0
    rw [fetchWalletInfo_retry endpoints net address r s pk hp h0 (by omega)]
    rw [ih (r + 1) (switchToNextEndpoint endpoints s) (switch_index_lt _ _ hN) (by omega)]
    · rw [Outcome.after_after, switch_index]
      have e1 : r + 1 + k = r + (k + 1) := by omega
      have e2 : ((s.currentEndpointIndex + 1) % endpoints.length + k) % endpoints.length
          = (s.currentEndpointIndex + (k + 1)) % endpoints.length := by
        rw [Nat.mod_add_mod]
        congr 1
        omega
      rw [e1, e2]
      congr 1
      exact range_succ_map_rot _ _ _ hs
    · intro j hj
      have := hall (j + 1) (by omega)
      rw [switch_index, Nat.mod_add_mod]
      have e1 : r + 1 + j = r + (j + 1) := by omega
      have e2 : s.currentEndpointIndex + 1 + j = s.currentEndpointIndex + (j + 1) := by omega
      rw [e1, e2]
      exact this

theorem rot_lt (N c j : Nat) (hc : c < N) : (c + j) % N < N :=
  Nat.mod_lt _ (by omega)

theorem rot_injOn (N c : Nat) (j₁ j₂ : Nat) (h₁ : j₁ < N) (h₂ : j₂ < N)
    (h : (c + j₁) % N = (c + j₂) % N) : j₁ = j₂ := by
  have h' : c + j₁ ≡ c + j₂ [MOD N] := h
  exact Nat.ModEq.eq_of_lt_of_lt (Nat.ModEq.add_left_cancel' c h') h₁ h₂

theorem rot_nodup (N c m : Nat) (hm : m ≤ N) :
    ((List.range m).map (fun j => (c + j) % N)).Nodup := by
  apply List.Nodup.map_on _ (List.nodup_range m)
  intro a ha b hb hab
  rw [List.mem_range] at ha hb
  exact rot_injOn N c a b (by omega) (by omega) hab

/-- Shape of one call from retry count `retryCount` on: it runs between one and
`endpoints.length - retryCount` attempts, on consecutive endpoints, and leaves the
cursor on the last endpoint it tried. -/
theorem fetchWalletInfo_shape (endpoints : List String) (net : Network) (address : String)
    (pk : PublicKey) (hp : resolveAndParse address = .ok pk) :
    ∀ (d retryCount : Nat) (s : State), endpoints.length - 1 - retryCount = d →
      s.currentEndpointIndex < endpoints.length →
      ∃ m, 1 ≤ m ∧ m ≤ d + 1 ∧
        (fetchWalletInfo endpoints net address retryCount s).attempts =
          (List.range m).map (fun j => (s.currentEndpointIndex + j) % endpoints.length) ∧
        (fetchWalletInfo endpoints net address retryCount s).state.currentEndpointIndex =
          (s.currentEndpointIndex + (m - 1)) % endpoints.length := by
  intro d
  induction d with
  | zero =>
    intro r s hd hs
    have hstop := fetchWalletInfo_stop endpoints net address r s pk hp (Or.inr (by omega))
    refine ⟨1, le_refl _, le_refl _, ?_, ?_⟩
    · rw [hstop.2]
      show [s.currentEndpointIndex] = [(s.currentEndpointIndex + 0) % endpoints.length]
      rw [Nat.add_zero, Nat.mod_eq_of_lt hs]
    · rw [hstop.1]
      show s.currentEndpointIndex = (s.currentEndpointIndex + 0) % endpoints.length
      rw [Nat.add_zero, Nat.mod_eq_of_lt hs]
  | succ d ih =>
    intro r s hd hs
    have hN : 0 < endpoints.length := by omega
    cases hf : retryableFailure (chainQueries (net r s.currentEndpointIndex) pk address) with
    | false =>
      have hstop := fetchWalletInfo_stop endpoints net address r s pk hp (Or.inl hf)
      refine ⟨1, le_refl _, by omega, ?_, ?_⟩
      · rw [hstop.2]
        show [s.currentEndpointIndex] = [(s.currentEndpointIndex + 0) % endpoints.length]
        rw [Nat.add_zero, Nat.mod_eq_of_lt hs]
      · rw [hstop.1]
        show s.currentEndpointIndex = (s.currentEndpointIndex + 0) % endpoints.length
        rw [Nat.add_zero, Nat.mod_eq_of_lt hs]
    | true =>
      obtain ⟨m, hm1, hm2, hatt, hst⟩ :=
        ih (r + 1) (switchToNextEndpoint endpoints s) (by omega) (switch_index_lt _ _ hN)
      refine ⟨m + 1, by omega, by omega, ?_, ?_⟩
      · rw [fetchWalletInfo_retry endpoints net address r s pk hp hf (by omega),
          Outcome.after_attempts, hatt, switch_index]
        exact range_succ_map_rot _ _ _ hs
      · rw [fetchWalletInfo_retry endpoints net address r s pk hp hf (by omega),
          Outcome.after_state, hst, switch_index, Nat.mod_add_mod]
        congr 1
        omega

theorem chainQueries_failing (error : JsError) (pk : PublicKey) (address : String) :
    chainQueries (Connection.failing error) pk address = .error error := rfl

theorem messageText_mkError (msg : String) : messageText (mkError msg) = msg := rfl

theorem terminalMessage_injective : Function.Injective terminalMessage := by
  intro a b h
  cases a <;> cases b <;> first | rfl | exact absurd h (by decide)

/-! ### The claims on the fetch pipeline -/

/-- C1, as stated, fails: with the three configured endpoints, cursor 0 and every
endpoint answering 403, one call sees three retryable failures in a row (attempts
on endpoints 0, 1, 2, then the terminal error), yet the cursor is left at 2 and
not at `(0 + 3) mod 3 = 0`. -/
theorem rotation_counterexample :
    (fetchWalletInfo (RPC_ENDPOINTS none) (Network.failing (mkError "403 Forbidden"))
        "5tzFkiKscXHK5ZXCGbXZxdw7gTjjD1mBwuoFbhUvuAi9" 0 State.initial).attempts = [0, 1, 2] ∧
    (fetchWalletInfo (RPC_ENDPOINTS none) (Network.failing (mkError "403 Forbidden"))
        "5tzFkiKscXHK5ZXCGbXZxdw7gTjjD1mBwuoFbhUvuAi9" 0 State.initial).result =
      .error (mkError (terminalMessage .forbidden)) ∧
    (fetchWalletInfo (RPC_ENDPOINTS none) (Network.failing (mkError "403 Forbidden"))
        "5tzFkiKscXHK5ZXCGbXZxdw7gTjjD1mBwuoFbhUvuAi9" 0 State.initial).state.currentEndpointIndex
      = 2 ∧
    (State.initial.currentEndpointIndex + 3) % (RPC_ENDPOINTS none).length ≠ 2 := by
  obtain ⟨pk, hp⟩ : ∃ pk, resolveAndParse "5tzFkiKscXHK5ZXCGbXZxdw7gTjjD1mBwuoFbhUvuAi9" = .ok pk :=
    ⟨_, rfl⟩
  have hcls : retryClass (errorMessage (mkError "403 Forbidden")) = some .forbidden := by decide
  have hrun := fetchWalletInfo_retries (RPC_ENDPOINTS none)
    (Network.failing (mkError "403 Forbidden")) _ pk hp 2 0 State.initial (by decide) (by decide)
    (fun j _ => by
      show retryableFailure (chainQueries (Connection.failing _) pk _) = true
      rw [chainQueries_failing]
      simp [retryableFailure, hcls])
  have hend := fetchWalletInfo_exhausted (RPC_ENDPOINTS none)
    (Network.failing (mkError "403 Forbidden")) _ (0 + 2)
    ⟨(State.initial.currentEndpointIndex + 2) % (RPC_ENDPOINTS none).length⟩ pk
    hp (chainQueries_failing _ _ _) hcls (by decide)
  rw [hrun, hend]
  refine ⟨rfl, rfl, rfl, by decide⟩

/-- C1 (amended): from cursor `i < N`, if the first `k ≤ N - 1` attempts of a call
made at retry count 0 end in retryable failures and attempt number `k` either is
the last one the budget allows (`k = N - 1`) or is not a retryable failure, then
the call queried the endpoints `(i + j) mod N` for `j = 0 .. k` and leaves
`currentEndpointIndex = (i + k) mod N`: a retryable failure advances the cursor
only when a retry follows it. The next call issues its first query against that
index: the cursor is not reset per call. -/
theorem rotation_sticky (endpoints : List String) (net : Network) (address : String)
    (pk : PublicKey) (s : State) (k : Nat)
    (hp : resolveAndParse address = .ok pk)
    (hi : s.currentEndpointIndex < endpoints.length)
    (hk : k ≤ endpoints.length - 1)
    (hfail : ∀ j, j < k → retryableFailure (chainQueries
      (net j ((s.currentEndpointIndex + j) % endpoints.length)) pk address) = true)
    (hstop : k = endpoints.length - 1 ∨ retryableFailure (chainQueries
      (net k ((s.currentEndpointIndex + k) % endpoints.length)) pk address) = false) :
    (fetchWalletInfo endpoints net address 0 s).attempts =
      (List.range (k + 1)).map (fun j => (s.currentEndpointIndex + j) % endpoints.length) ∧
    (fetchWalletInfo endpoints net address 0 s).state.currentEndpointIndex =
      (s.currentEndpointIndex + k) % endpoints.length ∧
    ∀ (net₂ : Network) (address₂ : String) (pk₂ : PublicKey),
      resolveAndParse address₂ = .ok pk₂ →
      (fetchWalletInfo endpoints net₂ address₂ 0
        (fetchWalletInfo endpoints net address 0 s).state).attempts.head? =
        some ((s.currentEndpointIndex + k) % endpoints.length) := by
  have hrun := fetchWalletInfo_retries endpoints net address pk hp k 0 s hi
    (by omega) (fun j hj => by simpa using hfail j hj)
  have hstop' := fetchWalletInfo_stop endpoints net address (0 + k)
    ⟨(s.currentEndpointIndex + k) % endpoints.length⟩ pk hp
    (by
      rcases hstop with h | h
      · exact Or.inr (by omega)
      · exact Or.inl (by simpa using h))
  have hstate : (fetchWalletInfo endpoints net address 0 s).state =
      ⟨(s.currentEndpointIndex + k) % endpoints.length⟩ := by
    rw [hrun, Outcome.after_state, hstop'.1]
  refine ⟨?_, ?_, ?_⟩
  · rw [hrun, Outcome.after_attempts, hstop'.2, List.range_succ, List.map_append]
    rfl
  · rw [hstate]
  · intro net₂ address₂ pk₂ hp₂
    rw [hstate]
    obtain ⟨m, hm1, _, hatt, _⟩ := fetchWalletInfo_shape endpoints net₂ address₂ pk₂ hp₂
      (endpoints.length - 1 - 0) 0 ⟨(s.currentEndpointIndex + k) % endpoints.length⟩ rfl
      (rot_lt _ _ _ hi)
    rw [hatt]
    obtain ⟨m', rfl⟩ : ∃ m', m = m' + 1 := ⟨m - 1, by omega⟩
    rw [List.range_succ_eq_map]
    simp

/-- Witness of `rotation_sticky`: three endpoints, cursor 1, two 429 failures, then
an answer; the cursor ends at `(1 + 2) mod 3 = 0`. -/
theorem rotation_sticky_witness :
    (State.mk 1).currentEndpointIndex < (RPC_ENDPOINTS none).length ∧
    (fetchWalletInfo (RPC_ENDPOINTS none) (Network.failingFirst 2 (mkError "429 Too Many Requests"))
      "toly.sol" 0 ⟨1⟩).attempts = [1, 2, 0] ∧
    (fetchWalletInfo (RPC_ENDPOINTS none) (Network.failingFirst 2 (mkError "429 Too Many Requests"))
      "toly.sol" 0 ⟨1⟩).state.currentEndpointIndex = 0 := by
  obtain ⟨pk, hp⟩ : ∃ pk, resolveAndParse "toly.sol" = .ok pk := ⟨_, rfl⟩
  have h := rotation_sticky (RPC_ENDPOINTS none)
    (Network.failingFirst 2 (mkError "429 Too Many Requests")) "toly.sol" pk ⟨1⟩ 2 hp
    (by decide) (by decide)
    (fun j hj => by
      have hc : Network.failingFirst 2 (mkError "429 Too Many Requests") j
          (((State.mk 1).currentEndpointIndex + j) % (RPC_ENDPOINTS none).length) =
          Connection.failing (mkError "429 Too Many Requests") := by
        simp [Network.failingFirst, hj]
      rw [hc, chainQueries_failing]
      decide)
    (Or.inl rfl)
  exact ⟨by decide, h.1, h.2.1⟩

/-- C2: one call at retry count 0 from a cursor `i < N` runs `m ≤ N` attempts,
whatever the endpoints answer; attempt number `j` is on endpoint `(i + j) mod N`, so
every attempted index is valid and no endpoint is tried twice. -/
theorem retry_budget (endpoints : List String) (net : Network) (address : String) (s : State)
    (hi : s.currentEndpointIndex < endpoints.length) :
    (∃ m, m ≤ endpoints.length ∧
      (fetchWalletInfo endpoints net address 0 s).attempts =
        (List.range m).map (fun j => (s.currentEndpointIndex + j) % endpoints.length)) ∧
    (fetchWalletInfo endpoints net address 0 s).attempts.length ≤ endpoints.length ∧
    (∀ e ∈ (fetchWalletInfo endpoints net address 0 s).attempts, e < endpoints.length) ∧
    (fetchWalletInfo endpoints net address 0 s).attempts.Nodup := by
  have hex : ∃ m, m ≤ endpoints.length ∧
      (fetchWalletInfo endpoints net address 0 s).attempts =
        (List.range m).map (fun j => (s.currentEndpointIndex + j) % endpoints.length) := by
    cases hp : resolveAndParse address with
    | error e =>
      refine ⟨0, Nat.zero_le _, ?_⟩
      rw [fetchWalletInfo_parse_error endpoints net address 0 s e hp]
      rfl
    | ok pk =>
      obtain ⟨m, _, hm, hatt, _⟩ := fetchWalletInfo_shape endpoints net address pk hp
        (endpoints.length - 1 - 0) 0 s rfl hi
      exact ⟨m, by omega, hatt⟩
  obtain ⟨m, hm, hatt⟩ := hex
  refine ⟨⟨m, hm, hatt⟩, ?_, ?_, ?_⟩
  · rw [hatt]
    simpa using hm
  · intro e he
    rw [hatt, List.mem_map] at he
    obtain ⟨j, _, rfl⟩ := he
    exact rot_lt _ _ _ hi
  · rw [hatt]
    exact rot_nodup _ _ _ hm

/-- Witness of `retry_budget`: the three configured endpoints, cursor 2, every
endpoint failing with a network error. -/
theorem retry_budget_witness :
    (State.mk 2).currentEndpointIndex < (RPC_ENDPOINTS none).length ∧
    (fetchWalletInfo (RPC_ENDPOINTS none) (Network.failing (mkError "Failed to fetch"))
      "shaq.sol" 0 ⟨2⟩).attempts.length ≤ (RPC_ENDPOINTS none).length ∧
    (fetchWalletInfo (RPC_ENDPOINTS none) (Network.failing (mkError "Failed to fetch"))
      "shaq.sol" 0 ⟨2⟩).attempts.Nodup :=
  have h := retry_budget (RPC_ENDPOINTS none) (Network.failing (mkError "Failed to fetch"))
    "shaq.sol" ⟨2⟩ (by decide)
  ⟨by decide, h.2.1, h.2.2.2⟩

/-- A description that carries a marker of class `c`, no marker of a class tested
before `c` and neither of the two texts tested first is put in class `c`. -/
theorem retryClass_of_markers (c : RetryClass) (m : String)
    (hc : hasMarker c m = true)
    (hforbidden : c ≠ .forbidden → hasMarker .forbidden m = false)
    (hrate : c = .network → hasMarker .rateLimited m = false)
    (hresolve : includes m "Failed to resolve" = false)
    (hkey : includes m "Invalid public key" = false) :
    retryClass m = some c := by
  unfold retryClass
  cases c with
  | forbidden =>
    simp only [hasMarker, Bool.or_eq_true] at hc
    simp [hresolve, hkey, hc]
  | rateLimited =>
    have h1 := hforbidden (by decide)
    simp only [hasMarker, Bool.or_eq_false_iff] at h1
    simp only [hasMarker, Bool.or_eq_true] at hc
    simp [hresolve, hkey, h1.1, h1.2, hc]
  | network =>
    have h1 := hforbidden (by decide)
    have h2 := hrate rfl
    simp only [hasMarker, Bool.or_eq_false_iff] at h1 h2
    simp only [hasMarker, Bool.or_eq_true] at hc
    simp [hresolve, hkey, h1.1, h1.2, h2.1, h2.2, hc]

/-- C3, as stated, fails when a description carries the marker of another test of
the `catch` block: a 429 answer from every endpoint whose text contains `403` ends
in the terminal message of the 403 class, not in the rate-limit one; a 403 answer
whose text contains `Invalid public key` is not retried at all and ends, after
one attempt, in `Invalid wallet address format`. -/
theorem exhausted_class_counterexample :
    hasMarker .rateLimited "429 Too Many Requests: request 14030 refused" = true ∧
    (fetchWalletInfo (RPC_ENDPOINTS none)
      (Network.failing (mkError "429 Too Many Requests: request 14030 refused"))
      "GThUX1Atko4tqhN2NaiTazWSeFWMuiUvfFnyJyUghFMJ" 0 State.initial).result =
      .error (mkError
        "All RPC endpoints are currently unavailable. Please try again later or use your own RPC endpoint.") ∧
    terminalMessage .rateLimited ≠
      "All RPC endpoints are currently unavailable. Please try again later or use your own RPC endpoint." ∧
    hasMarker .forbidden "403 Forbidden: Invalid public key" = true ∧
    fetchWalletInfo (RPC_ENDPOINTS none)
      (Network.failing (mkError "403 Forbidden: Invalid public key"))
      "GThUX1Atko4tqhN2NaiTazWSeFWMuiUvfFnyJyUghFMJ" 0 State.initial =
      ⟨.error (mkError "Invalid wallet address format"), State.initial, [0]⟩ := by
  obtain ⟨pk, hp⟩ : ∃ pk, resolveAndParse "GThUX1Atko4tqhN2NaiTazWSeFWMuiUvfFnyJyUghFMJ" = .ok pk :=
    ⟨_, rfl⟩
  have hcls : retryClass (errorMessage (mkError "429 Too Many Requests: request 14030 refused")) =
      some .forbidden := by decide
  have hrun := fetchWalletInfo_retries (RPC_ENDPOINTS none)
    (Network.failing (mkError "429 Too Many Requests: request 14030 refused")) _ pk hp 2 0
    State.initial (by decide) (by decide)
    (fun j _ => by
      show retryableFailure (chainQueries (Connection.failing _) pk _) = true
      rw [chainQueries_failing]
      simp [retryableFailure, hcls])
  have hend := fetchWalletInfo_exhausted (RPC_ENDPOINTS none)
    (Network.failing (mkError "429 Too Many Requests: request 14030 refused")) _ (0 + 2)
    ⟨(State.initial.currentEndpointIndex + 2) % (RPC_ENDPOINTS none).length⟩ pk
    hp (chainQueries_failing _ _ _) hcls (by decide)
  refine ⟨by decide, ?_, by decide, by decide, ?_⟩
  · rw [hrun, Outcome.after_result, hend]
    rfl
  · rw [fetchWalletInfo_unfold, tryBlock_ok _ hp, queriedEndpoints_ok _ hp]
    have hq : chainQueries (Network.failing (mkError "403 Forbidden: Invalid public key") 0
        State.initial.currentEndpointIndex) pk "GThUX1Atko4tqhN2NaiTazWSeFWMuiUvfFnyJyUghFMJ" =
        .error (mkError "403 Forbidden: Invalid public key") := rfl
    rw [hq]
    have h1 : includes (errorMessage (mkError "403 Forbidden: Invalid public key"))
        "Failed to resolve" = false := by decide
    have h2 : includes (errorMessage (mkError "403 Forbidden: Invalid public key"))
        "Invalid public key" = true := by decide
    simp only [h1, h2]
    rfl

/-- C3 (amended): for a parseable address and a retryable class `c`, if every
configured endpoint fails the chain queries with a description that carries a
marker of `c`, no marker of a class the `catch` block tests before `c` (403, then
429, then network) and neither `Failed to resolve` nor `Invalid public key`, the
call throws after exactly `N` attempts with the terminal message of `c`; the three
terminal messages are the ones quoted and are pairwise distinct. -/
theorem exhausted_terminal_error (endpoints : List String) (net : Network) (address : String)
    (pk : PublicKey) (s : State) (c : RetryClass)
    (hp : resolveAndParse address = .ok pk)
    (hi : s.currentEndpointIndex < endpoints.length)
    (hall : ∀ r e, e < endpoints.length → ∃ err,
      chainQueries (net r e) pk address = .error err ∧
      hasMarker c (errorMessage err) = true ∧
      (c ≠ .forbidden → hasMarker .forbidden (errorMessage err) = false) ∧
      (c = .network → hasMarker .rateLimited (errorMessage err) = false) ∧
      includes (errorMessage err) "Failed to resolve" = false ∧
      includes (errorMessage err) "Invalid public key" = false) :
    (fetchWalletInfo endpoints net address 0 s).result = .error (mkError (terminalMessage c)) ∧
    (fetchWalletInfo endpoints net address 0 s).attempts.length = endpoints.length ∧
    terminalMessage .forbidden =
      "All RPC endpoints are currently unavailable. Please try again later or use your own RPC endpoint." ∧
    terminalMessage .rateLimited =
      "Rate limit exceeded on all endpoints. Please try again in a moment." ∧
    terminalMessage .network =
      "Network error on all RPC endpoints. Please check your internet connection or configure a custom RPC endpoint." ∧
    Function.Injective terminalMessage := by
  have hall' : ∀ r e, e < endpoints.length → ∃ err,
      chainQueries (net r e) pk address = .error err ∧
      retryClass (errorMessage err) = some c := by
    intro r e he
    obtain ⟨err, hq, h1, h2, h3, h4, h5⟩ := hall r e he
    exact ⟨err, hq, retryClass_of_markers c _ h1 h2 h3 h4 h5⟩
  have hrun := fetchWalletInfo_retries endpoints net address pk hp
    (endpoints.length - 1) 0 s hi (by omega) (fun j _ => by
      obtain ⟨err, he, hc⟩ := hall' (0 + j) ((s.currentEndpointIndex + j) % endpoints.length)
        (rot_lt _ _ _ hi)
      rw [he]
      simp [retryableFailure, hc])
  obtain ⟨err, he, hc⟩ := hall' (0 + (endpoints.length - 1))
    ((s.currentEndpointIndex + (endpoints.length - 1)) % endpoints.length) (rot_lt _ _ _ hi)
  have hend := fetchWalletInfo_exhausted endpoints net address (0 + (endpoints.length - 1))
    ⟨(s.currentEndpointIndex + (endpoints.length - 1)) % endpoints.length⟩ pk
    hp he hc (by omega)
  refine ⟨?_, ?_, rfl, rfl, rfl, terminalMessage_injective⟩
  · rw [hrun, Outcome.after_result, hend]
  · rw [hrun, Outcome.after_attempts, hend]
    simp
    omega

/-- Witness of `exhausted_terminal_error`: a 44-character address and a plain 429
answer from each of the three configured endpoints; the text has no 403 marker. -/
theorem exhausted_terminal_error_witness :
    hasMarker .rateLimited (errorMessage (mkError "429 Too Many Requests")) = true ∧
    hasMarker .forbidden (errorMessage (mkError "429 Too Many Requests")) = false ∧
    (fetchWalletInfo (RPC_ENDPOINTS none) (Network.failing (mkError "429 Too Many Requests"))
      "GThUX1Atko4tqhN2NaiTazWSeFWMuiUvfFnyJyUghFMJ" 0 State.initial).result =
      .error (mkError "Rate limit exceeded on all endpoints. Please try again in a moment.") ∧
    (fetchWalletInfo (RPC_ENDPOINTS none) (Network.failing (mkError "429 Too Many Requests"))
      "GThUX1Atko4tqhN2NaiTazWSeFWMuiUvfFnyJyUghFMJ" 0 State.initial).attempts.length = 3 := by
  obtain ⟨pk, hp⟩ : ∃ pk, resolveAndParse "GThUX1Atko4tqhN2NaiTazWSeFWMuiUvfFnyJyUghFMJ" = .ok pk :=
    ⟨_, rfl⟩
  have h := exhausted_terminal_error (RPC_ENDPOINTS none)
    (Network.failing (mkError "429 Too Many Requests"))
    "GThUX1Atko4tqhN2NaiTazWSeFWMuiUvfFnyJyUghFMJ"
    pk State.initial .rateLimited hp (by decide)
    (fun _ _ _ => ⟨mkError "429 Too Many Requests", chainQueries_failing _ _ _, by decide,
      fun _ => by decide, fun hc => absurd hc (by decide), by decide, by decide⟩)
  exact ⟨by decide, by decide, h.1, h.2.1⟩

/-- C4: for an input ending in `.sol` whose normalised form is not a key of the
registry, the call throws `Failed to resolve <input>: <message of the resolver>` at
every retry count, runs no chain query and leaves the cursor where it was. -/
theorem domain_resolution_not_retried (endpoints : List String) (net : Network)
    (address : String) (retryCount : Nat) (s : State)
    (hsol : endsWith address ".sol" = true)
    (hreg : knownDomains.lookup (trim (toLowerCase address)) = none) :
    fetchWalletInfo endpoints net address retryCount s =
      ⟨.error (mkError ("Failed to resolve " ++ address ++
        ": SNS domain resolution not available for this domain. Please use a public key address.")),
        s, []⟩ := by
  have hp : resolveAndParse address = .error (mkError ("Failed to resolve " ++ address ++
      ": SNS domain resolution not available for this domain. Please use a public key address.")) := by
    unfold resolveAndParse
    rw [if_pos hsol, resolveSNSDomain_not_found address hsol hreg]
    simp only [messageText_mkError]
    rw [String.append_assoc, String.append_assoc]
    rfl
  rw [fetchWalletInfo_parse_error endpoints net address retryCount s _ hp, if_pos hsol]

/-- Witness of `domain_resolution_not_retried`: an unregistered domain whose name
contains a retry marker, at retry count 1 and cursor 2. -/
theorem domain_resolution_not_retried_witness :
    endsWith "error403.sol" ".sol" = true ∧
    knownDomains.lookup (trim (toLowerCase "error403.sol")) = none ∧
    fetchWalletInfo (RPC_ENDPOINTS none) (Network.failing (mkError "403 Forbidden"))
        "error403.sol" 1 ⟨2⟩ =
      ⟨.error (mkError ("Failed to resolve " ++ "error403.sol" ++
        ": SNS domain resolution not available for this domain. Please use a public key address.")),
        ⟨2⟩, []⟩ :=
  ⟨by decide, by decide,
    domain_resolution_not_retried (RPC_ENDPOINTS none) (Network.failing (mkError "403 Forbidden"))
      "error403.sol" 1 ⟨2⟩ (by decide) (by decide)⟩

/-- C5 fails on the code: an address with a character outside the base58 alphabet
(here an Ethereum-style address) does not end in `.sol` and cannot be parsed, yet
the call throws `Failed to fetch wallet information: Non-base58 character` and not
`Invalid wallet address format`, because line 179 only recognises the message
`Invalid public key input`. No chain query is made and the cursor is unchanged. -/
theorem invalid_address_non_base58 (endpoints : List String) (net : Network)
    (retryCount : Nat) (s : State) :
    endsWith "0x52908400098527886E0F7030069857D2E4169EE7" ".sol" = false ∧
    bs58decode "0x52908400098527886E0F7030069857D2E4169EE7" =
      .error (mkError "Non-base58 character") ∧
    fetchWalletInfo endpoints net "0x52908400098527886E0F7030069857D2E4169EE7" retryCount s =
      ⟨.error (mkError "Failed to fetch wallet information: Non-base58 character"), s, []⟩ := by
  refine ⟨by decide, rfl, ?_⟩
  have hp : resolveAndParse "0x52908400098527886E0F7030069857D2E4169EE7" =
      .error (mkError "Non-base58 character") := rfl
  rw [fetchWalletInfo_parse_error endpoints net _ retryCount s _ hp]
  rfl

/-- The part of C5 that the code does meet: an address that decodes, but not to 32
bytes, is reported as `Invalid wallet address format`, and no failure of the
parsing step, whatever its message, causes a chain query or moves the cursor. -/
theorem invalid_address_wrong_length (endpoints : List String) (net : Network)
    (address : String) (retryCount : Nat) (s : State) (decoded : List Nat)
    (hsol : endsWith address ".sol" = false)
    (hd : bs58decode address = .ok decoded) (hlen : decoded.length ≠ 32) :
    fetchWalletInfo endpoints net address retryCount s =
      ⟨.error (mkError "Invalid wallet address format"), s, []⟩ := by
  have hp : resolveAndParse address = .error (mkError "Invalid public key input") := by
    unfold resolveAndParse PublicKey.new
    simp [hsol, hd, PUBLIC_KEY_LENGTH, hlen]
  rw [fetchWalletInfo_parse_error endpoints net address retryCount s _ hp]
  simp [hsol]

/-- C6: when the chain queries fail with a description that contains none of the
markers the `catch` block looks for, the call throws `Failed to fetch wallet
information: <description>` after that single attempt and leaves the cursor
unchanged. The description is the one line 172 derives from the thrown value (its
message when it has a non-empty one). -/
theorem non_retryable_surfaced (endpoints : List String) (net : Network) (address : String)
    (retryCount : Nat) (s : State) (pk : PublicKey) (e : JsError)
    (hp : resolveAndParse address = .ok pk)
    (he : chainQueries (net retryCount s.currentEndpointIndex) pk address = .error e)
    (h403 : includes (errorMessage e) "403" = false)
    (hforbidden : includes (errorMessage e) "Access forbidden" = false)
    (h429 : includes (errorMessage e) "429" = false)
    (hmany : includes (errorMessage e) "Too Many Requests" = false)
    (hfetch : includes (toLowerCase (errorMessage e)) "failed to fetch" = false)
    (hnetwork : includes (toLowerCase (errorMessage e)) "network error" = false)
    (hresolve : includes (errorMessage e) "Failed to resolve" = false)
    (hkey : includes (errorMessage e) "Invalid public key" = false) :
    fetchWalletInfo endpoints net address retryCount s =
      ⟨.error (mkError ("Failed to fetch wallet information: " ++ errorMessage e)), s,
        [s.currentEndpointIndex]⟩ := by
  rw [fetchWalletInfo_unfold, tryBlock_ok _ hp, queriedEndpoints_ok _ hp, he]
  have hc : retryClass (errorMessage e) = none := by
    simp [retryClass, h403, hforbidden, h429, hmany, hfetch, hnetwork, hresolve, hkey]
  simp [hresolve, hkey, hc]

/-- Witness of `non_retryable_surfaced`: an endpoint answering with a server error
that carries no marker. -/
theorem non_retryable_surfaced_witness :
    fetchWalletInfo (RPC_ENDPOINTS none) (Network.failing (mkError "500 Internal Server Error"))
        "7xKXtg2CW87d97TXJSDpbD5jBkheTqA83TZRuJosgAsU" 0 State.initial =
      ⟨.error (mkError ("Failed to fetch wallet information: " ++
        errorMessage (mkError "500 Internal Server Error"))), State.initial, [0]⟩ := by
  obtain ⟨pk, hp⟩ : ∃ pk, resolveAndParse "7xKXtg2CW87d97TXJSDpbD5jBkheTqA83TZRuJosgAsU" = .ok pk :=
    ⟨_, rfl⟩
  exact non_retryable_surfaced (RPC_ENDPOINTS none)
    (Network.failing (mkError "500 Internal Server Error"))
    "7xKXtg2CW87d97TXJSDpbD5jBkheTqA83TZRuJosgAsU" 0 State.initial pk
    (mkError "500 Internal Server Error") hp (chainQueries_failing _ _ _)
    (by decide) (by decide) (by decide) (by decide) (by decide) (by decide) (by decide) (by decide)

/-! ### Base58 -/

theorem ofDigitsBE_foldl (b : Nat) (ds : List Nat) (acc : Nat) :
    ds.foldl (fun acc d => acc * b + d) acc = acc * b ^ ds.length + Nat.ofDigits b ds.reverse := by
  induction ds generalizing acc with
  | nil => simp
  | cons d ds ih =>
    rw [List.foldl_cons, ih, List.reverse_cons, Nat.ofDigits_append, Nat.ofDigits_singleton,
      List.length_reverse, List.length_cons]
    ring

theorem ofDigitsBE_eq (b : Nat) (ds : List Nat) : ofDigitsBE b ds = Nat.ofDigits b ds.reverse := by
  unfold ofDigitsBE
  rw [ofDigitsBE_foldl]
  simp

theorem toDigitsAux_eq (b : Nat) (hb : 1 < b) :
    ∀ (fuel n : Nat) (acc : List Nat), n ≤ fuel →
      toDigitsAux b fuel n acc = (Nat.digits b n).reverse ++ acc := by
  intro fuel
  induction fuel with
  | zero =>
    intro n acc hn
    have : n = 0 := by omega
    subst this
    simp [toDigitsAux]
  | succ fuel ih =>
    intro n acc hn
    unfold toDigitsAux
    by_cases h0 : n = 0
    · subst h0
      simp
    · have hpos : 0 < n := Nat.pos_of_ne_zero h0
      have hdiv : n / b < n := Nat.div_lt_self hpos hb
      rw [if_neg h0, ih (n / b) _ (by omega), Nat.digits_def' hb hpos]
      simp

theorem toDigitsBE_eq (b n : Nat) (hb : 1 < b) : toDigitsBE b n = (Nat.digits b n).reverse := by
  unfold toDigitsBE
  rw [toDigitsAux_eq b hb n n [] (le_refl _)]
  simp

theorem toDigitsBE_length_bound (n : Nat) : n < 256 ^ (toDigitsBE 256 n).length := by
  rw [toDigitsBE_eq 256 n (by norm_num), List.length_reverse]
  exact Nat.lt_base_pow_length_digits (by norm_num)

theorem toDigitsBE_length_lower (n : Nat) (hn : n ≠ 0) :
    256 ^ (toDigitsBE 256 n).length ≤ 256 * n := by
  rw [toDigitsBE_eq 256 n (by norm_num), List.length_reverse]
  exact Nat.base_pow_length_digits_le 256 n (by norm_num) hn

theorem toDigitsBE_zero (b : Nat) : toDigitsBE b 0 = [] := rfl

theorem ofDigitsBE_replicate_append (b z : Nat) (ds : List Nat) :
    ofDigitsBE b (List.replicate z 0 ++ ds) = ofDigitsBE b ds := by
  rw [ofDigitsBE_eq, ofDigitsBE_eq, List.reverse_append, Nat.ofDigits_append]
  have : Nat.ofDigits b (List.replicate z 0).reverse = 0 := by
    rw [List.reverse_replicate]
    induction z with
    | zero => rfl
    | succ z ih => rw [List.replicate_succ, Nat.ofDigits_cons, ih]; simp
  rw [this]
  simp

theorem ofDigitsBE_toDigitsBE (b n : Nat) (hb : 1 < b) : ofDigitsBE b (toDigitsBE b n) = n := by
  rw [ofDigitsBE_eq, toDigitsBE_eq b n hb, List.reverse_reverse, Nat.ofDigits_digits]

theorem base58Digit_lt (c : Char) (d : Nat) (h : base58Digit c = some d) : d < 58 := by
  unfold base58Digit at h
  simp only at h
  split_ifs at h with hlt
  injection h with h
  omega

theorem base58Digit_mem (c : Char) (d : Nat) (h : base58Digit c = some d) :
    c ∈ ALPHABET.data := by
  unfold base58Digit at h
  simp only at h
  split_ifs at h with hlt
  exact List.indexOf_lt_length.1 (by simpa using hlt)

theorem base58Digit_pos (c : Char) (d : Nat) (h : base58Digit c = some d) (hc : c ≠ '1') :
    0 < d := by
  have hmem := base58Digit_mem c d h
  have hall : ∀ a ∈ ALPHABET.data, a ≠ '1' → base58Digit a ≠ some 0 := by decide
  rcases Nat.eq_zero_or_pos d with h0 | h0
  · subst h0
    exact absurd h (hall c hmem hc)
  · exact h0

theorem base58Digits_spec : ∀ (cs : List Char) (ds : List Nat), base58Digits cs = some ds →
    ds.length = cs.length ∧ (∀ d ∈ ds, d < 58) ∧ (∀ c ∈ cs, c ∈ ALPHABET.data) ∧
    (∀ c, cs.head? = some c → c ≠ '1' → ∃ d ds', ds = d :: ds' ∧ 0 < d) := by
  intro cs
  induction cs with
  | nil =>
    intro ds h
    simp [base58Digits] at h
    subst h
    simp
  | cons c cs ih =>
    intro ds h
    unfold base58Digits at h
    cases hd : base58Digit c with
    | none => simp [hd] at h
    | some d =>
      cases hds : base58Digits cs with
      | none => simp [hd, hds] at h
      | some ds' =>
        simp only [hd, hds] at h
        injection h with h
        subst h
        obtain ⟨h1, h2, h3, _⟩ := ih ds' hds
        refine ⟨by simp [h1], ?_, ?_, ?_⟩
        · intro x hx
          rcases List.mem_cons.1 hx with rfl | hx
          · exact base58Digit_lt c _ hd
          · exact h2 x hx
        · intro x hx
          rcases List.mem_cons.1 hx with rfl | hx
          · exact base58Digit_mem _ d hd
          · exact h3 x hx
        · intro x hx hne
          simp at hx
          subst hx
          exact ⟨d, ds', rfl, base58Digit_pos _ d hd hne⟩

theorem ofDigitsBE_58_bounds (d : Nat) (ds : List Nat) (hd : 0 < d)
    (hall : ∀ x ∈ d :: ds, x < 58) :
    58 ^ ds.length ≤ ofDigitsBE 58 (d :: ds) ∧ ofDigitsBE 58 (d :: ds) < 58 ^ (ds.length + 1) := by
  constructor
  · rw [ofDigitsBE_eq, List.reverse_cons, Nat.ofDigits_append, Nat.ofDigits_singleton,
      List.length_reverse]
    calc 58 ^ ds.length = 58 ^ ds.length * 1 := by ring
      _ ≤ 58 ^ ds.length * d := Nat.mul_le_mul_left _ hd
      _ ≤ _ := Nat.le_add_left _ _
  · rw [ofDigitsBE_eq]
    have := Nat.ofDigits_lt_base_pow_length (b := 58) (l := (d :: ds).reverse) (by norm_num)
      (by
        intro x hx
        exact hall x (List.mem_reverse.1 hx))
    simpa using this

/-- Arithmetic of the two bases: a base-58 numeral of `r` digits without a leading
zero digit and the `L ≤ 32` bytes of its value satisfy `L ≤ r ≤ L + 12`. -/
theorem digits_58_256 (v r L : Nat) (hL : L ≤ 32) (h1 : 58 ^ r ≤ v) (h2 : v < 58 ^ (r + 1))
    (h3 : v < 256 ^ L) (h4 : 256 ^ L ≤ 256 * v) : L ≤ r + 1 ∧ r + 1 ≤ L + 12 := by
  constructor
  · by_contra hcon
    have hle : r + 2 ≤ L := by omega
    have e1 : (256 : Nat) ^ (r + 2) ≤ 256 ^ L := Nat.pow_le_pow_right (by norm_num) hle
    have e2 : (58 : Nat) ^ (r + 1) ≤ 256 ^ (r + 1) := Nat.pow_le_pow_left (by norm_num) _
    have e3 : (256 : Nat) ^ (r + 2) = 256 * 256 ^ (r + 1) := by ring
    omega
  · by_contra hcon
    have hle : L + 12 ≤ r := by omega
    have e1 : (58 : Nat) ^ (L + 12) ≤ 58 ^ r := Nat.pow_le_pow_right (by norm_num) hle
    have e2 : (256 : Nat) ^ L ≤ 58 ^ (L + 12) := by
      interval_cases L <;> norm_num
    omega

theorem bs58decode_ok (s : String) (bytes : List Nat) (h : bs58decode s = .ok bytes) :
    ∃ ds, base58Digits (s.data.dropWhile (· == '1')) = some ds ∧
      bytes = List.replicate (s.data.takeWhile (· == '1')).length 0 ++
        toDigitsBE 256 (ofDigitsBE 58 ds) := by
  unfold bs58decode at h
  cases hb : base58Digits (s.data.dropWhile (· == '1')) with
  | none => simp [hb] at h
  | some ds =>
    simp only [hb] at h
    injection h with h
    exact ⟨ds, rfl, h.symm⟩

theorem alphabet_facts : ∀ c ∈ ALPHABET.data,
    isWhiteSpace c = false ∧ utf16Units c = 1 ∧ c ≠ '.' := by decide

theorem jsLength_of_alphabet (s : String) (h : ∀ c ∈ s.data, c ∈ ALPHABET.data) :
    jsLength s = s.data.length := by
  unfold jsLength
  have : ∀ cs : List Char, (∀ c ∈ cs, c ∈ ALPHABET.data) → (cs.map utf16Units).sum = cs.length := by
    intro cs
    induction cs with
    | nil => intro _; rfl
    | cons c cs ih =>
      intro hc
      rw [List.map_cons, List.sum_cons, ih (fun x hx => hc x (List.mem_cons_of_mem _ hx)),
        (alphabet_facts c (hc c (List.mem_cons_self _ _))).2.1, List.length_cons]
      omega
  exact this _ h

theorem trim_of_alphabet (s : String) (h : ∀ c ∈ s.data, c ∈ ALPHABET.data) : trim s = s := by
  unfold trim
  rw [trimChars_eq_self _ (fun c hc => (alphabet_facts c (h c hc)).1)]

theorem not_endsWith_sol_of_alphabet (s : String) (h : ∀ c ∈ s.data, c ∈ ALPHABET.data) :
    endsWith s ".sol" = false := by
  cases he : endsWith s ".sol" with
  | false => rfl
  | true =>
    obtain ⟨xs, hxs⟩ := (endsWith_iff _ _).1 he
    have hmem : '.' ∈ s.data := by
      rw [hxs]
      exact List.mem_append_right _ (by decide)
    exact absurd rfl (alphabet_facts _ (h _ hmem)).2.2

/-- What a decoding to exactly 32 bytes says about the text: it is written in the
alphabet, has between 32 and 44 characters, and the number it denotes fits the
32 bytes of a key. -/
theorem bs58decode_32 (s : String) (bytes : List Nat) (h : bs58decode s = .ok bytes)
    (hlen : bytes.length = 32) :
    (∀ c ∈ s.data, c ∈ ALPHABET.data) ∧ 32 ≤ s.data.length ∧ s.data.length ≤ 44 ∧
    (toDigitsBE 256 (ofDigitsBE 256 bytes)).length ≤ 32 := by
  obtain ⟨ds, hds, hbytes⟩ := bs58decode_ok s bytes h
  obtain ⟨hl, hlt, hmem, hhead⟩ := base58Digits_spec _ _ hds
  have hsplit : s.data.takeWhile (· == '1') ++ s.data.dropWhile (· == '1') = s.data :=
    List.takeWhile_append_dropWhile _ _
  have hslen : s.data.length =
      (s.data.takeWhile (· == '1')).length + (s.data.dropWhile (· == '1')).length := by
    conv_lhs => rw [← hsplit]
    rw [List.length_append]
  have hchars : ∀ c ∈ s.data, c ∈ ALPHABET.data := by
    intro c hc
    rw [← hsplit, List.mem_append] at hc
    rcases hc with hc | hc
    · have : (fun x : Char => x == '1') c = true :=
        List.mem_takeWhile_imp (p := fun x : Char => x == '1') hc
      have : c = '1' := by simpa using this
      subst this
      decide
    · exact hmem c hc
  have hval : ofDigitsBE 256 bytes = ofDigitsBE 58 ds := by
    rw [hbytes, ofDigitsBE_replicate_append, ofDigitsBE_toDigitsBE _ _ (by norm_num)]
  have hblen : (s.data.takeWhile (· == '1')).length +
      (toDigitsBE 256 (ofDigitsBE 58 ds)).length = 32 := by
    rw [hbytes, List.length_append, List.length_replicate] at hlen
    exact hlen
  refine ⟨hchars, ?_, ?_, ?_⟩
  all_goals
    cases hrest : s.data.dropWhile (· == '1') with
    | nil =>
      rw [hrest] at hl
      have hnil : ds = [] := List.length_eq_zero.1 (by simpa using hl)
      subst hnil
      have hz : toDigitsBE 256 (ofDigitsBE 58 []) = [] := rfl
      rw [hz] at hblen
      first
        | (rw [hslen, hrest]; simp at hblen ⊢; omega)
        | (rw [hval, hz]; simp)
    | cons c cs =>
      have hc1 : c ≠ '1' := by
        have := List.head?_dropWhile_not (· == '1') s.data
        rw [hrest] at this
        simpa using this
      obtain ⟨d, ds', hdd, hdpos⟩ := hhead c (by rw [hrest]; rfl) hc1
      subst hdd
      obtain ⟨hb1, hb2⟩ := ofDigitsBE_58_bounds d ds' hdpos hlt
      have hv0 : ofDigitsBE 58 (d :: ds') ≠ 0 := by
        have : 0 < 58 ^ ds'.length := Nat.pow_pos (by norm_num)
        omega
      have hL := digits_58_256 (ofDigitsBE 58 (d :: ds')) ds'.length
        (toDigitsBE 256 (ofDigitsBE 58 (d :: ds'))).length (by omega) hb1 hb2
        (toDigitsBE_length_bound _) (toDigitsBE_length_lower _ hv0)
      rw [hrest] at hl
      simp only [List.length_cons] at hl
      first
        | (rw [hslen, hrest, List.length_cons]; omega)
        | (rw [hval]; omega)

theorem PublicKey_new_ok (s : String) (bytes : List Nat) (h : bs58decode s = .ok bytes)
    (hlen : bytes.length = 32) : PublicKey.new (.str s) = .ok ⟨ofDigitsBE 256 bytes⟩ := by
  have hfit := (bs58decode_32 s bytes h hlen).2.2.2
  unfold PublicKey.new
  simp [h, hlen, PUBLIC_KEY_LENGTH]
  omega

/-! ### The claims on validation -/

theorem ne_empty_of_trim_ne_empty (address : String) (h : trim address ≠ "") : address ≠ "" := by
  rintro rfl
  exact h rfl

/-- Past the emptiness test and the `.sol` test, with a length in range, the result
is decided by the decoding alone. -/
theorem validateSolanaAddress_in_range (address : String)
    (hlo : 32 ≤ jsLength (trim address)) (hhi : jsLength (trim address) ≤ 44)
    (hsol : endsWith (trim address) ".sol" = false) :
    validateSolanaAddress address =
      match bs58decode (trim address) with
      | .error _ => ⟨false, some "not a valid sol address⛔", none⟩
      | .ok decoded =>
        if decoded.length ≠ 32 then
          ⟨false, some ("Invalid address format. Decoded length should be 32 bytes, got "
            ++ toString decoded.length), none⟩
        else ⟨true, none, some false⟩ := by
  have hne : trim address ≠ "" := by
    intro h
    rw [h] at hlo
    exact absurd hlo (by decide)
  have hne' := ne_empty_of_trim_ne_empty address hne
  unfold validateSolanaAddress
  rw [if_neg (by simp [hne, hne'])]
  simp only [hsol]
  rw [if_neg (by simp), if_neg (by omega)]
  cases hd : bs58decode (trim address) with
  | error e => rfl
  | ok decoded =>
    simp only
    by_cases hlen : decoded.length = 32
    · rw [if_neg (by simpa using hlen), if_neg (by simpa using hlen),
        PublicKey_new_ok _ _ hd hlen]
    · rw [if_pos hlen, if_pos hlen]

/-- C7, as stated, fails on three kinds of input: the empty string is shorter than
32 characters and does not end in `.sol`, yet gets the empty-input error; a valid
44-character address with a leading blank is longer than 44 characters, yet is
valid; a domain with a trailing blank does not end in `.sol`, yet is valid. -/
theorem bad_length_counterexample :
    (jsLength "" < 32 ∧ endsWith "" ".sol" = false ∧
      validateSolanaAddress "" = ⟨false, some "Address cannot be empty", none⟩) ∧
    (44 < jsLength " 5tzFkiKscXHK5ZXCGbXZxdw7gTjjD1mBwuoFbhUvuAi9" ∧
      endsWith " 5tzFkiKscXHK5ZXCGbXZxdw7gTjjD1mBwuoFbhUvuAi9" ".sol" = false ∧
      validateSolanaAddress " 5tzFkiKscXHK5ZXCGbXZxdw7gTjjD1mBwuoFbhUvuAi9" =
        ⟨true, none, some false⟩) ∧
    (jsLength "toly.sol " < 32 ∧ endsWith "toly.sol " ".sol" = false ∧
      validateSolanaAddress "toly.sol " = ⟨true, none, some true⟩) := by
  decide

/-- C7 (amended): when the trimmed input is not empty, does not end in `.sol` and
has fewer than 32 or more than 44 UTF-16 code units, the result is invalid with
the length error, which quotes the length of the trimmed input. -/
theorem bad_length (address : String) (hne : trim address ≠ "")
    (hsol : endsWith (trim address) ".sol" = false)
    (hlen : jsLength (trim address) < 32 ∨ 44 < jsLength (trim address)) :
    validateSolanaAddress address =
      ⟨false, some ("Invalid address length. Expected 32-44 characters, got "
        ++ toString (jsLength (trim address))), none⟩ := by
  have hne' := ne_empty_of_trim_ne_empty address hne
  unfold validateSolanaAddress
  rw [if_neg (by simp [hne, hne'])]
  simp only [hsol]
  rw [if_neg (by simp), if_pos (by omega)]

/-- Witness of `bad_length`: a 12-character word between blanks. -/
theorem bad_length_witness :
    trim "  not-a-wallet " ≠ "" ∧ endsWith (trim "  not-a-wallet ") ".sol" = false ∧
    validateSolanaAddress "  not-a-wallet " =
      ⟨false, some "Invalid address length. Expected 32-44 characters, got 12", none⟩ :=
  ⟨by decide, by decide,
    bad_length "  not-a-wallet " (by decide) (by decide) (Or.inl (by decide))⟩

/-- C8: a string that base58-decodes to exactly 32 bytes is valid and not a domain;
it is written in the base58 alphabet, so it has between 32 and 44 characters and
does not end in `.sol`. -/
theorem base58_key_valid (s : String) (bytes : List Nat) (h : bs58decode s = .ok bytes)
    (hlen : bytes.length = 32) :
    validateSolanaAddress s = ⟨true, none, some false⟩ ∧
    (∀ c ∈ s.data, c ∈ ALPHABET.data) ∧
    32 ≤ jsLength s ∧ jsLength s ≤ 44 ∧ endsWith s ".sol" = false := by
  obtain ⟨hchars, hlo, hhi, _⟩ := bs58decode_32 s bytes h hlen
  have htrim := trim_of_alphabet s hchars
  have hjs := jsLength_of_alphabet s hchars
  have hsol := not_endsWith_sol_of_alphabet s hchars
  refine ⟨?_, hchars, by omega, by omega, hsol⟩
  rw [validateSolanaAddress_in_range s (by rw [htrim]; omega) (by rw [htrim]; omega)
    (by rw [htrim]; exact hsol), htrim, h]
  simp [hlen]

/-- Witness of `base58_key_valid`: 32 times the character `1`, the shortest text
of a key (32 zero bytes). -/
theorem base58_key_valid_witness :
    bs58decode "11111111111111111111111111111111" = .ok (List.replicate 32 0) ∧
    validateSolanaAddress "11111111111111111111111111111111" = ⟨true, none, some false⟩ :=
  ⟨rfl, (base58_key_valid "11111111111111111111111111111111" (List.replicate 32 0) rfl rfl).1⟩

/-- C9: every string ending in `.sol` is valid and flagged as a domain, whatever
else it contains and whether or not the registry knows it. -/
theorem domain_valid (address : String) (h : endsWith address ".sol" = true) :
    validateSolanaAddress address = ⟨true, none, some true⟩ := by
  have hne := ne_empty_of_endsWith_sol address h
  have hne' := trim_ne_empty_of_endsWith_sol address h
  unfold validateSolanaAddress
  rw [if_neg (by simp [hne, hne'])]
  simp only [endsWith_trim_sol address h]
  rfl

/-- Witness of `domain_valid`: a name with blanks and symbols that the registry
does not know. -/
theorem domain_valid_witness :
    endsWith " no such\tname!.sol" ".sol" = true ∧
    knownDomains.lookup (trim (toLowerCase " no such\tname!.sol")) = none ∧
    validateSolanaAddress " no such\tname!.sol" = ⟨true, none, some true⟩ :=
  ⟨by decide, by decide, domain_valid " no such\tname!.sol" (by decide)⟩

/-- C10: for an input whose trimmed form has 32 to 44 UTF-16 code units and does
not end in `.sol`, the result is valid exactly when the trimmed form decodes to 32
bytes; then it is `{isValid: true, error: null, isSNS: false}`, and otherwise it is
invalid with one of the two encoding errors. -/
theorem in_range_valid_iff (address : String)
    (hlo : 32 ≤ jsLength (trim address)) (hhi : jsLength (trim address) ≤ 44)
    (hsol : endsWith (trim address) ".sol" = false) :
    ((validateSolanaAddress address).isValid = true ↔
      ∃ bytes, bs58decode (trim address) = .ok bytes ∧ bytes.length = 32) ∧
    ((∃ bytes, bs58decode (trim address) = .ok bytes ∧ bytes.length = 32) →
      validateSolanaAddress address = ⟨true, none, some false⟩) ∧
    ((∃ e, bs58decode (trim address) = .error e) →
      validateSolanaAddress address = ⟨false, some "not a valid sol address⛔", none⟩) ∧
    (∀ bytes, bs58decode (trim address) = .ok bytes → bytes.length ≠ 32 →
      validateSolanaAddress address =
        ⟨false, some ("Invalid address format. Decoded length should be 32 bytes, got "
          ++ toString bytes.length), none⟩) := by
  have hv := validateSolanaAddress_in_range address hlo hhi hsol
  cases hd : bs58decode (trim address) with
  | error e =>
    rw [hd] at hv
    refine ⟨?_, ?_, ?_, ?_⟩
    · rw [hv]
      simp
    · rintro ⟨bytes, hb, _⟩
      exact absurd hb (by simp)
    · intro _
      exact hv
    · intro bytes hb
      exact absurd hb (by simp)
  | ok decoded =>
    rw [hd] at hv
    by_cases hlen : decoded.length = 32
    · have hv' : validateSolanaAddress address = ⟨true, none, some false⟩ := by
        rw [hv]
        simp [hlen]
      refine ⟨?_, fun _ => hv', ?_, ?_⟩
      · rw [hv']
        simp [hlen]
      · rintro ⟨e, he⟩
        exact absurd he (by simp)
      · intro bytes hb hne
        injection hb with hb
        subst hb
        exact absurd hlen hne
    · have hv' : validateSolanaAddress address =
          ⟨false, some ("Invalid address format. Decoded length should be 32 bytes, got "
            ++ toString decoded.length), none⟩ := by
        rw [hv]
        simp [hlen]
      refine ⟨?_, ?_, ?_, ?_⟩
      · rw [hv']
        simp [hlen]
      · rintro ⟨bytes, hb, hb32⟩
        injection hb with hb
        subst hb
        exact absurd hb32 hlen
      · rintro ⟨e, he⟩
        exact absurd he (by simp)
      · intro bytes hb _
        injection hb with hb
        subst hb
        exact hv'

/-- Witness of `in_range_valid_iff`: a 32-character text in the alphabet that
decodes to fewer than 32 bytes, hence invalid. -/
theorem in_range_valid_iff_witness :
    32 ≤ jsLength (trim " abcdefghijkmnopqrstuvwxyzabcdefg ") ∧
    jsLength (trim " abcdefghijkmnopqrstuvwxyzabcdefg ") ≤ 44 ∧
    ((validateSolanaAddress " abcdefghijkmnopqrstuvwxyzabcdefg ").isValid = true ↔
      ∃ bytes, bs58decode (trim " abcdefghijkmnopqrstuvwxyzabcdefg ") = .ok bytes ∧
        bytes.length = 32) :=
  ⟨by decide, by decide,
    (in_range_valid_iff " abcdefghijkmnopqrstuvwxyzabcdefg " (by decide) (by decide)
      (by decide)).1⟩

/-! ### Empty input and the registry -/

theorem trimChars_eq_nil_iff (cs : List Char) :
    trimChars cs = [] ↔ ∀ c ∈ cs, isWhiteSpace c = true := by
  unfold trimChars
  rw [List.reverse_eq_nil_iff, List.dropWhile_eq_nil_iff]
  constructor
  · intro h
    have hnil : cs.dropWhile isWhiteSpace = [] := by
      cases hd : cs.dropWhile isWhiteSpace with
      | nil => rfl
      | cons x xs =>
        have hx := List.head?_dropWhile_not isWhiteSpace cs
        rw [hd] at hx h
        have hx' : isWhiteSpace x = false := by simpa using hx
        have := h x (by simp)
        rw [hx'] at this
        exact absurd this (by decide)
    exact List.dropWhile_eq_nil_iff.1 hnil
  · intro h
    rw [List.dropWhile_eq_nil_iff.2 h]
    simp

theorem trim_eq_empty_iff (s : String) :
    trim s = "" ↔ ∀ c ∈ s.data, isWhiteSpace c = true := by
  rw [← trimChars_eq_nil_iff]
  unfold trim
  constructor
  · intro h
    exact congrArg String.data h
  · intro h
    rw [h]

theorem length_error_ne (x : String) :
    "Invalid address length. Expected 32-44 characters, got " ++ x ≠ "Address cannot be empty" := by
  intro h
  have := congrArg (fun t => t.data.head?) h
  simp [String.data_append] at this

theorem format_error_ne (x : String) :
    "Invalid address format. Decoded length should be 32 bytes, got " ++ x ≠
      "Address cannot be empty" := by
  intro h
  have := congrArg (fun t => t.data.head?) h
  simp [String.data_append] at this

/-- Past the emptiness test no branch of the validation reports the empty-input
error. -/
theorem validateSolanaAddress_error_of_ne_empty (s : String) (hs : s ≠ "") (ht : trim s ≠ "") :
    (validateSolanaAddress s).error ≠ some "Address cannot be empty" := by
  unfold validateSolanaAddress
  rw [if_neg (by simp [hs, ht])]
  simp only
  split_ifs
  · simp
  · simp only [ne_eq, Option.some.injEq]
    exact length_error_ne _
  · cases bs58decode (trim s) with
    | error e => simp only; decide
    | ok decoded =>
      simp only
      split_ifs
      · simp only [ne_eq, Option.some.injEq]
        exact format_error_ne _
      · cases PublicKey.new (.str (trim s)) with
        | error e => simp only; decide
        | ok pk => simp

/-- C11: the result is the empty-input error exactly when every character of the
input is white space (none, for the empty string); no other input gets that error
message. -/
theorem empty_input_iff (s : String) :
    (validateSolanaAddress s = ⟨false, some "Address cannot be empty", none⟩ ↔
      ∀ c ∈ s.data, isWhiteSpace c = true) ∧
    ((validateSolanaAddress s).error = some "Address cannot be empty" ↔
      ∀ c ∈ s.data, isWhiteSpace c = true) ∧
    validateSolanaAddress "" = ⟨false, some "Address cannot be empty", none⟩ := by
  have hfwd : (∀ c ∈ s.data, isWhiteSpace c = true) →
      validateSolanaAddress s = ⟨false, some "Address cannot be empty", none⟩ := by
    intro h
    unfold validateSolanaAddress
    rw [if_pos (Or.inr ((trim_eq_empty_iff s).2 h))]
  have hback : (validateSolanaAddress s).error = some "Address cannot be empty" →
      ∀ c ∈ s.data, isWhiteSpace c = true := by
    intro h
    by_contra hcon
    have ht : trim s ≠ "" := fun ht => hcon ((trim_eq_empty_iff s).1 ht)
    exact validateSolanaAddress_error_of_ne_empty s (ne_empty_of_trim_ne_empty s ht) ht h
  refine ⟨⟨fun h => hback (by rw [h]), hfwd⟩, ⟨hback, fun h => by rw [hfwd h]⟩, by decide⟩

/-- The registry part of `resolveSNSDomain`: a registered name gives its address,
and a name that is neither registered nor a member inherited from
`Object.prototype` makes it throw. -/
theorem resolveSNSDomain_registry (domain : String) :
    (∀ a, knownDomains.lookup (trim (toLowerCase domain)) = some a →
      resolveSNSDomain domain = .ok (.str a)) ∧
    (knownDomains.lookup (trim (toLowerCase domain)) = none →
      objectPrototypeKeys.contains (trim (toLowerCase domain)) = false →
      resolveSNSDomain domain = .error (mkError
        "SNS domain resolution not available for this domain. Please use a public key address.")) := by
  constructor
  · intro a ha
    unfold resolveSNSDomain knownDomainsGet
    simp only [ha]
  · intro h1 h2
    unfold resolveSNSDomain knownDomainsGet
    simp only [h1, h2]
    rfl

/-- C12 fails on the code: `constructor` is not a registered domain, yet
`resolveSNSDomain` does not throw for it, because the read `knownDomains[...]` of
line 89 also finds the members every object literal inherits from
`Object.prototype`; the same holds for its spellings in other cases or between
blanks, and for `__proto__`. -/
theorem resolve_inherited_member :
    knownDomains.lookup (trim (toLowerCase "constructor")) = none ∧
    resolveSNSDomain "constructor" = .ok (.inherited "constructor") ∧
    resolveSNSDomain " Constructor " = .ok (.inherited "constructor") ∧
    resolveSNSDomain "__proto__" = .ok (.inherited "__proto__") :=
  ⟨by decide, rfl, rfl, rfl⟩

/-! ### The returned record -/

theorem chainQueries_ok_inv (connection : Connection) (pk : PublicKey) (address : String)
    (info : WalletInfo) (h : chainQueries connection pk address = .ok info) :
    ∃ balance signatures accountInfo,
      connection.getBalance pk = .ok balance ∧
      connection.getSignaturesForAddress pk 5 = .ok signatures ∧
      connection.getAccountInfo pk = .ok accountInfo ∧
      info =
        { address := pk.toBase58
          originalAddress := address
          balance := ⟨balance, LAMPORTS_PER_SOL⟩
          balanceInLamports := balance
          transactions := (signatures.take 3).map (transactionSummary connection)
          totalTransactions := signatures.length
          accountExists := accountInfo.isSome
          isExecutable := match accountInfo with
            | some a => a.executable
            | none => false
          owner := match accountInfo with
            | some a => if a.owner.toBase58 ≠ "" then some a.owner.toBase58 else none
            | none => none } := by
  unfold chainQueries at h
  cases hb : connection.getBalance pk with
  | error e => simp [hb] at h
  | ok balance =>
    cases hs : connection.getSignaturesForAddress pk 5 with
    | error e => simp [hb, hs] at h
    | ok signatures =>
      cases ha : connection.getAccountInfo pk with
      | error e => simp [hb, hs, ha] at h
      | ok accountInfo =>
        simp only [hb, hs, ha] at h
        injection h with h
        exact ⟨balance, signatures, accountInfo, rfl, rfl, rfl, h.symm⟩

/-- A call that returns a record returns the one assembled by the chain queries of
some attempt, made against the endpoint the cursor is left on. -/
theorem fetchWalletInfo_ok_inv (endpoints : List String) (net : Network) (address : String)
    (info : WalletInfo) :
    ∀ (d retryCount : Nat) (s : State), endpoints.length - 1 - retryCount = d →
      (fetchWalletInfo endpoints net address retryCount s).result = .ok info →
      ∃ pk r, resolveAndParse address = .ok pk ∧ retryCount ≤ r ∧
        chainQueries (net r
          (fetchWalletInfo endpoints net address retryCount s).state.currentEndpointIndex)
          pk address = .ok info := by
  intro d
  induction d with
  | zero =>
    intro r s hd h
    have hunf := fetchWalletInfo_unfold endpoints net address r s
    rw [hunf] at h ⊢
    cases ht : tryBlock (net r s.currentEndpointIndex) address with
    | ok info' =>
      simp only [ht] at h ⊢
      injection h with h
      subst h
      unfold tryBlock at ht
      cases hp : resolveAndParse address with
      | error e => simp [hp] at ht
      | ok pk =>
        simp only [hp] at ht
        exact ⟨pk, r, rfl, le_refl _, ht⟩
    | error e =>
      simp only [ht] at h
      have hr : ¬ r < endpoints.length - 1 := by omega
      split_ifs at h
      cases hc : retryClass (errorMessage e) with
      | none => simp [hc] at h
      | some c => simp [hc, hr] at h
  | succ d ih =>
    intro r s hd h
    have hunf := fetchWalletInfo_unfold endpoints net address r s
    rw [hunf] at h ⊢
    cases ht : tryBlock (net r s.currentEndpointIndex) address with
    | ok info' =>
      simp only [ht] at h ⊢
      injection h with h
      subst h
      unfold tryBlock at ht
      cases hp : resolveAndParse address with
      | error e => simp [hp] at ht
      | ok pk =>
        simp only [hp] at ht
        exact ⟨pk, r, rfl, le_refl _, ht⟩
    | error e =>
      simp only [ht] at h ⊢
      have hr : r < endpoints.length - 1 := by omega
      by_cases h1 : includes (errorMessage e) "Failed to resolve" = true
      · simp [h1] at h
      · by_cases h2 : includes (errorMessage e) "Invalid public key" = true
        · simp [h1, h2] at h
        · cases hc : retryClass (errorMessage e) with
          | none => simp [h1, h2, hc] at h
          | some c =>
            simp only [h1, h2, hc, hr, if_true, if_false, Outcome.after_result,
              Outcome.after_state] at h ⊢
            obtain ⟨pk, r', hp, hle, hq⟩ :=
              ih (r + 1) (switchToNextEndpoint endpoints s) (by omega) h
            exact ⟨pk, r', hp, by omega, hq⟩

theorem transactionSummary_fields (connection : Connection) (sig : SignatureInfo) :
    (transactionSummary connection sig).signature = sig.signature ∧
    (transactionSummary connection sig).slot = sig.slot ∧
    (transactionSummary connection sig).blockTime = sig.blockTime := by
  unfold transactionSummary
  cases connection.getTransaction sig.signature <;> exact ⟨rfl, rfl, rfl⟩

/-- C13: a call that returns a record `info` got, in the attempt that succeeded, a
signature list `S` such that `info.transactions` has `min 3 |S|` summaries, which
carry the signature, slot and block time of the first entries of `S` in the same
order, and `info.totalTransactions = |S|`. -/
theorem transactions_bounded (endpoints : List String) (net : Network) (address : String)
    (retryCount : Nat) (s : State) (info : WalletInfo)
    (h : (fetchWalletInfo endpoints net address retryCount s).result = .ok info) :
    ∃ pk r S, resolveAndParse address = .ok pk ∧
      (net r (fetchWalletInfo endpoints net address retryCount s).state.currentEndpointIndex
        ).getSignaturesForAddress pk 5 = .ok S ∧
      info.transactions.length = min 3 S.length ∧
      info.transactions.map (fun t => (t.signature, t.slot, t.blockTime)) =
        (S.take 3).map (fun g => (g.signature, g.slot, g.blockTime)) ∧
      info.totalTransactions = S.length := by
  obtain ⟨pk, r, hp, _, hq⟩ := fetchWalletInfo_ok_inv endpoints net address info _ retryCount s rfl h
  obtain ⟨balance, S, acc, _, hS, _, hinfo⟩ := chainQueries_ok_inv _ _ _ _ hq
  refine ⟨pk, r, S, hp, hS, ?_, ?_, ?_⟩
  · rw [hinfo]
    simp
  · rw [hinfo]
    simp only [List.map_map]
    apply List.map_congr_left
    intro g _
    obtain ⟨h1, h2, h3⟩ := transactionSummary_fields
      (net r (fetchWalletInfo endpoints net address retryCount s).state.currentEndpointIndex) g
    simp [Function.comp, h1, h2, h3]
  · rw [hinfo]

theorem fetchWalletInfo_ok (endpoints : List String) (net : Network) (address : String)
    (retryCount : Nat) (s : State) (pk : PublicKey) (info : WalletInfo)
    (hp : resolveAndParse address = .ok pk)
    (hq : chainQueries (net retryCount s.currentEndpointIndex) pk address = .ok info) :
    fetchWalletInfo endpoints net address retryCount s = ⟨.ok info, s, [s.currentEndpointIndex]⟩ := by
  rw [fetchWalletInfo_unfold, tryBlock_ok _ hp, queriedEndpoints_ok _ hp, hq]

/-- Witness of `transactions_bounded`: five signatures are listed, three summaries
are returned and the count is five. -/
theorem transactions_bounded_witness :
    ∃ info, (fetchWalletInfo (RPC_ENDPOINTS none)
        (fun _ _ => Connection.serving 1500000000 sampleSignatures [] (mkError "") none)
        "toly.sol" 0 State.initial).result = .ok info ∧
      info.transactions.length = 3 ∧ info.totalTransactions = 5 := by
  obtain ⟨pk, hp⟩ : ∃ pk, resolveAndParse "toly.sol" = .ok pk := ⟨_, rfl⟩
  obtain ⟨info, hq⟩ : ∃ info, chainQueries
      (Connection.serving 1500000000 sampleSignatures [] (mkError "") none) pk "toly.sol"
      = .ok info := ⟨_, rfl⟩
  have hres : (fetchWalletInfo (RPC_ENDPOINTS none)
      (fun _ _ => Connection.serving 1500000000 sampleSignatures [] (mkError "") none)
      "toly.sol" 0 State.initial).result = .ok info := by
    rw [fetchWalletInfo_ok _ _ _ _ _ pk info hp hq]
  obtain ⟨pk', r, S, _, hS, hlen, _, htot⟩ := transactions_bounded (RPC_ENDPOINTS none)
    (fun _ _ => Connection.serving 1500000000 sampleSignatures [] (mkError "") none)
    "toly.sol" 0 State.initial info hres
  have hSeq : S = sampleSignatures := by
    have : (Except.ok (sampleSignatures.take 5) : Except JsError (List SignatureInfo)) = .ok S := hS
    injection this with this
    rw [← this]
    rfl
  subst hSeq
  exact ⟨info, hres, hlen, htot⟩

/-- C14, as stated, fails in its last part: `success` is `!sig.err` (line 143), a
test of truthiness, so an entry whose `err` is the empty string has an `err` and
still gets `success = true`. Here the detail fetch of the first entry fails and
the third entry has `err = ''`. -/
theorem partial_failure_success_counterexample :
    ∃ info t, fetchWalletInfo (RPC_ENDPOINTS none)
        (fun _ _ => Connection.serving 7 sampleSignaturesEmptyErr ["sigE"] (mkError "timeout") none)
        "mccann.sol" 0 State.initial = ⟨.ok info, State.initial, [0]⟩ ∧
      sampleSignaturesEmptyErr[2]? = some ⟨"sigC", 103, none, some ""⟩ ∧
      info.transactions[2]? = some t ∧ t.success = true ∧ t.err = some "" ∧
      (some "" : Option String) ≠ none := by
  obtain ⟨pk, hp⟩ : ∃ pk, resolveAndParse "mccann.sol" = .ok pk := ⟨_, rfl⟩
  exact ⟨_, _, fetchWalletInfo_ok (RPC_ENDPOINTS none)
    (fun _ _ => Connection.serving 7 sampleSignaturesEmptyErr ["sigE"] (mkError "timeout") none)
    "mccann.sol" 0 State.initial pk _ hp rfl, rfl, rfl, rfl, rfl, by decide⟩

/-- C14 (amended): when the balance, signature and account queries of an attempt
succeed, the list has at least three entries and the detail fetch fails, with
whatever error, for entry number `i < 3` only, the call returns (it does not
throw), makes that single attempt and leaves the cursor alone; the record has
three summaries, number `i` with `success = false` and `err = 'Failed to fetch
details'`, the two others with the `err` of their entry and `success = true`
exactly when that `err` is falsy: `null` or the empty string. -/
theorem partial_failure_isolated (endpoints : List String) (net : Network) (address : String)
    (retryCount : Nat) (s : State) (pk : PublicKey) (balance : Nat) (S : List SignatureInfo)
    (accountInfo : Option AccountInfo) (i : Nat) (e : JsError)
    (hp : resolveAndParse address = .ok pk)
    (hb : (net retryCount s.currentEndpointIndex).getBalance pk = .ok balance)
    (hS : (net retryCount s.currentEndpointIndex).getSignaturesForAddress pk 5 = .ok S)
    (ha : (net retryCount s.currentEndpointIndex).getAccountInfo pk = .ok accountInfo)
    (hlen : 3 ≤ S.length) (hi : i < 3)
    (hfail : ∀ g, S[i]? = some g →
      (net retryCount s.currentEndpointIndex).getTransaction g.signature = .error e)
    (hok : ∀ j g, j < 3 → j ≠ i → S[j]? = some g →
      (net retryCount s.currentEndpointIndex).getTransaction g.signature = .ok ()) :
    ∃ info, fetchWalletInfo endpoints net address retryCount s =
        ⟨.ok info, s, [s.currentEndpointIndex]⟩ ∧
      info.transactions.length = 3 ∧
      ∀ j, j < 3 → ∃ g t, S[j]? = some g ∧ info.transactions[j]? = some t ∧
        t.signature = g.signature ∧
        (j = i → t.success = false ∧ t.err = some "Failed to fetch details") ∧
        (j ≠ i → (t.success = true ↔ g.err = none ∨ g.err = some "") ∧ t.err = g.err) := by
  have hq : chainQueries (net retryCount s.currentEndpointIndex) pk address = .ok
      { address := pk.toBase58
        originalAddress := address
        balance := ⟨balance, LAMPORTS_PER_SOL⟩
        balanceInLamports := balance
        transactions := (S.take 3).map (transactionSummary (net retryCount s.currentEndpointIndex))
        totalTransactions := S.length
        accountExists := accountInfo.isSome
        isExecutable := match accountInfo with
          | some a => a.executable
          | none => false
        owner := match accountInfo with
          | some a => if a.owner.toBase58 ≠ "" then some a.owner.toBase58 else none
          | none => none } := by
    unfold chainQueries
    simp only [hb, hS, ha]
    cases accountInfo <;> rfl
  refine ⟨_, fetchWalletInfo_ok endpoints net address retryCount s pk _ hp hq, ?_, ?_⟩
  · simp
    omega
  · intro j hj
    have hjS : j < S.length := by omega
    refine ⟨S[j], transactionSummary (net retryCount s.currentEndpointIndex) S[j],
      List.getElem?_eq_getElem hjS, ?_, (transactionSummary_fields _ _).1, ?_, ?_⟩
    · simp [List.getElem?_take, hj, List.getElem?_eq_getElem hjS]
    · intro hji
      subst hji
      have := hfail S[j] (List.getElem?_eq_getElem hjS)
      simp [transactionSummary, this]
    · intro hji
      have := hok j S[j] hj hji (List.getElem?_eq_getElem hjS)
      simp only [transactionSummary, this]
      refine ⟨?_, trivial⟩
      cases herr : S[j].err with
      | none => simp [truthy]
      | some x => simp [truthy]

/-- Witness of `partial_failure_isolated`: the detail fetch of the third entry is
answered with a 403, a marker that would cause a retry if it escaped. -/
theorem partial_failure_isolated_witness :
    ∃ info, fetchWalletInfo (RPC_ENDPOINTS none)
        (fun _ _ => Connection.serving 7 sampleSignatures ["sigC"] (mkError "403 Forbidden") none)
        "mccann.sol" 0 State.initial = ⟨.ok info, State.initial, [0]⟩ ∧
      info.transactions.length = 3 := by
  obtain ⟨pk, hp⟩ : ∃ pk, resolveAndParse "mccann.sol" = .ok pk := ⟨_, rfl⟩
  obtain ⟨info, h, hlen, _⟩ := partial_failure_isolated (RPC_ENDPOINTS none)
    (fun _ _ => Connection.serving 7 sampleSignatures ["sigC"] (mkError "403 Forbidden") none)
    "mccann.sol" 0 State.initial pk 7 sampleSignatures none 2 (mkError "403 Forbidden")
    hp rfl rfl rfl (by decide) (by decide)
    (fun g hg => by
      have : g = ⟨"sigC", 103, none, none⟩ := by
        have h' : sampleSignatures[2]? = some ⟨"sigC", 103, none, none⟩ := rfl
        rw [h'] at hg
        injection hg with hg
        exact hg.symm
      subst this
      rfl)
    (fun j g hj hne hg => by
      have hcases : j = 0 ∨ j = 1 := by omega
      rcases hcases with rfl | rfl
      · have h' : sampleSignatures[0]? = some ⟨"sigE", 105, some 1700000500, none⟩ := rfl
        rw [h'] at hg
        injection hg with hg
        subst hg
        rfl
      · have h' : sampleSignatures[1]? =
            some ⟨"sigD", 104, some 1700000400, some "InstructionError"⟩ := rfl
        rw [h'] at hg
        injection hg with hg
        subst hg
        rfl)
  exact ⟨info, h, hlen⟩

/-- C17: a call that returns a record `info` got, in the attempt that succeeded, a
balance and an account record such that `info.balanceInLamports` is that balance
and `info.balance` is the double that the division of that balance by
`LAMPORTS_PER_SOL` yields (line 125), whatever the account record is; when the
record is `null`, `accountExists` and `isExecutable` are false and `owner` is
`null`; when it is not, `accountExists` is true. -/
theorem account_metadata (endpoints : List String) (net : Network) (address : String)
    (retryCount : Nat) (s : State) (info : WalletInfo)
    (h : (fetchWalletInfo endpoints net address retryCount s).result = .ok info) :
    ∃ pk r balance accountInfo, resolveAndParse address = .ok pk ∧
      (net r (fetchWalletInfo endpoints net address retryCount s).state.currentEndpointIndex
        ).getBalance pk = .ok balance ∧
      (net r (fetchWalletInfo endpoints net address retryCount s).state.currentEndpointIndex
        ).getAccountInfo pk = .ok accountInfo ∧
      info.balanceInLamports = balance ∧
      info.balance = ⟨balance, LAMPORTS_PER_SOL⟩ ∧
      (accountInfo = none →
        info.accountExists = false ∧ info.isExecutable = false ∧ info.owner = none) ∧
      (accountInfo ≠ none → info.accountExists = true) := by
  obtain ⟨pk, r, hp, _, hq⟩ := fetchWalletInfo_ok_inv endpoints net address info _ retryCount s rfl h
  obtain ⟨balance, S, acc, hb, _, ha, hinfo⟩ := chainQueries_ok_inv _ _ _ _ hq
  refine ⟨pk, r, balance, acc, hp, hb, ha, ?_, ?_, ?_, ?_⟩
  · rw [hinfo]
  · rw [hinfo]
  · intro hnone
    subst hnone
    rw [hinfo]
    exact ⟨rfl, rfl, rfl⟩
  · intro hsome
    rw [hinfo]
    cases acc with
    | none => exact absurd rfl hsome
    | some a => rfl

/-- Witness of `account_metadata`: an address with a balance but no account
record. -/
theorem account_metadata_witness :
    ∃ info, (fetchWalletInfo (RPC_ENDPOINTS none)
        (fun _ _ => Connection.serving 2500000000 [] [] (mkError "") none)
        "shaq.sol" 0 State.initial).result = .ok info ∧
      info.accountExists = false ∧ info.balanceInLamports = 2500000000 := by
  obtain ⟨pk, hp⟩ : ∃ pk, resolveAndParse "shaq.sol" = .ok pk := ⟨_, rfl⟩
  obtain ⟨info, hq⟩ : ∃ info, chainQueries
      (Connection.serving 2500000000 [] [] (mkError "") none) pk "shaq.sol" = .ok info :=
    ⟨_, rfl⟩
  have hres : (fetchWalletInfo (RPC_ENDPOINTS none)
      (fun _ _ => Connection.serving 2500000000 [] [] (mkError "") none)
      "shaq.sol" 0 State.initial).result = .ok info := by
    rw [fetchWalletInfo_ok _ _ _ _ _ pk info hp hq]
  obtain ⟨pk', r, balance, acc, _, hb, ha, hlam, _, hnone, _⟩ := account_metadata
    (RPC_ENDPOINTS none) (fun _ _ => Connection.serving 2500000000 [] [] (mkError "") none)
    "shaq.sol" 0 State.initial info hres
  have hacc : acc = none := by
    have : (Except.ok none : Except JsError (Option AccountInfo)) = .ok acc := ha
    injection this with this
    exact this.symm
  have hbal : balance = 2500000000 := by
    have : (Except.ok 2500000000 : Except JsError Nat) = .ok balance := hb
    injection this with this
    exact this.symm
  exact ⟨info, hres, (hnone hacc).1, by rw [hlam, hbal]⟩

/-! ### Base58 round trip -/

theorem base58Digit_getD (c : Char) (d : Nat) (h : base58Digit c = some d) :
    ALPHABET.data.getD d '1' = c := by
  unfold base58Digit at h
  simp only at h
  split_ifs at h with hlt
  injection h with h
  subst h
  have hlen : List.indexOf c ALPHABET.data < ALPHABET.data.length := by
    have : ALPHABET.data.length = 58 := by decide
    omega
  rw [List.getD_eq_getElem _ _ hlen]
  exact List.getElem_indexOf hlen

theorem base58Digits_getD : ∀ (cs : List Char) (ds : List Nat), base58Digits cs = some ds →
    ds.map (fun d => ALPHABET.data.getD d '1') = cs := by
  intro cs
  induction cs with
  | nil =>
    intro ds h
    simp [base58Digits] at h
    subst h
    rfl
  | cons c cs ih =>
    intro ds h
    unfold base58Digits at h
    cases hd : base58Digit c with
    | none => simp [hd] at h
    | some d =>
      cases hds : base58Digits cs with
      | none => simp [hd, hds] at h
      | some ds' =>
        simp only [hd, hds] at h
        injection h with h
        subst h
        rw [List.map_cons, ih ds' hds, base58Digit_getD c d hd]

theorem toDigitsBE_head_ne_zero (b n : Nat) (hb : 1 < b) :
    ∀ x, (toDigitsBE b n).head? = some x → x ≠ 0 := by
  intro x hx
  rw [toDigitsBE_eq b n hb, List.head?_reverse] at hx
  have hne : Nat.digits b n ≠ [] := by
    intro h
    rw [h] at hx
    exact absurd hx (by simp)
  have hn : n ≠ 0 := Nat.digits_ne_nil_iff_ne_zero.1 hne
  rw [List.getLast?_eq_getLast _ hne] at hx
  injection hx with hx
  rw [← hx]
  exact Nat.getLast_digit_ne_zero b hn

theorem toDigitsBE_ofDigitsBE (b : Nat) (hb : 1 < b) (ds : List Nat) (hlt : ∀ d ∈ ds, d < b)
    (hhead : ∀ x, ds.head? = some x → x ≠ 0) : toDigitsBE b (ofDigitsBE b ds) = ds := by
  rw [toDigitsBE_eq b _ hb, ofDigitsBE_eq, Nat.digits_ofDigits b hb ds.reverse
    (fun l hl => hlt l (List.mem_reverse.1 hl))
    (fun hne => by
      have hne' : ds ≠ [] := by simpa using hne
      rw [List.getLast_reverse]
      exact hhead _ (List.head?_eq_head hne')),
    List.reverse_reverse]

theorem takeWhile_zero_replicate_append (z : Nat) (D : List Nat)
    (hD : ∀ x, D.head? = some x → x ≠ 0) :
    (List.replicate z 0 ++ D).takeWhile (· == 0) = List.replicate z 0 := by
  rw [List.takeWhile_append_of_pos (by
    intro a ha
    have := List.eq_of_mem_replicate ha
    simp [this])]
  cases D with
  | nil => simp
  | cons x xs =>
    have hx : x ≠ 0 := hD x rfl
    simp [List.takeWhile_cons, hx]

/-- Encoding undoes decoding: a text that `bs58decode` accepts is the encoding of
the bytes it decodes to. -/
theorem bs58encode_decode (s : String) (bytes : List Nat) (h : bs58decode s = .ok bytes) :
    bs58encode bytes = s := by
  obtain ⟨ds, hds, hbytes⟩ := bs58decode_ok s bytes h
  obtain ⟨_, hlt, _, hhead⟩ := base58Digits_spec _ _ hds
  have hval : ofDigitsBE 256 bytes = ofDigitsBE 58 ds := by
    rw [hbytes, ofDigitsBE_replicate_append, ofDigitsBE_toDigitsBE _ _ (by norm_num)]
  have hzero : (bytes.takeWhile (· == 0)).length = (s.data.takeWhile (· == '1')).length := by
    rw [hbytes, takeWhile_zero_replicate_append _ _ (toDigitsBE_head_ne_zero 256 _ (by norm_num))]
    simp
  have hdshead : ∀ x, ds.head? = some x → x ≠ 0 := by
    intro x hx
    cases hrest : s.data.dropWhile (· == '1') with
    | nil =>
      rw [hrest] at hds
      simp [base58Digits] at hds
      subst hds
      simp at hx
    | cons c cs =>
      have hc1 : c ≠ '1' := by
        have := List.head?_dropWhile_not (· == '1') s.data
        rw [hrest] at this
        simpa using this
      obtain ⟨d, ds', hdd, hdpos⟩ := hhead c (by rw [hrest]; rfl) hc1
      subst hdd
      simp at hx
      omega
  have hones : List.replicate (s.data.takeWhile (· == '1')).length '1' =
      s.data.takeWhile (· == '1') := by
    symm
    rw [List.eq_replicate_iff]
    refine ⟨rfl, ?_⟩
    intro c hc
    have : (fun x : Char => x == '1') c = true :=
      List.mem_takeWhile_imp (p := fun x : Char => x == '1') hc
    simpa using this
  unfold bs58encode
  simp only [hzero, hval]
  rw [toDigitsBE_ofDigitsBE 58 (by norm_num) ds hlt hdshead, base58Digits_getD _ ds hds, hones,
    List.takeWhile_append_dropWhile]

theorem PublicKey_new_inv (x : String) (pk : PublicKey) (h : PublicKey.new (.str x) = .ok pk) :
    ∃ bytes, bs58decode x = .ok bytes ∧ bytes.length = 32 ∧ pk = ⟨ofDigitsBE 256 bytes⟩ := by
  unfold PublicKey.new at h
  cases hd : bs58decode x with
  | error e => simp [hd] at h
  | ok decoded =>
    simp only [hd, PUBLIC_KEY_LENGTH] at h
    split_ifs at h with h1 h2
    injection h with h
    exact ⟨decoded, rfl, by simpa using h1, h.symm⟩

theorem toBytes_of_decode (s : String) (bytes : List Nat) (h : bs58decode s = .ok bytes)
    (hlen : bytes.length = 32) : PublicKey.toBytes ⟨ofDigitsBE 256 bytes⟩ = bytes := by
  obtain ⟨ds, _, hbytes⟩ := bs58decode_ok s bytes h
  have hval : ofDigitsBE 256 bytes = ofDigitsBE 58 ds := by
    rw [hbytes, ofDigitsBE_replicate_append, ofDigitsBE_toDigitsBE _ _ (by norm_num)]
  unfold PublicKey.toBytes
  simp only [hval, PUBLIC_KEY_LENGTH]
  have hl : (s.data.takeWhile (· == '1')).length +
      (toDigitsBE 256 (ofDigitsBE 58 ds)).length = 32 := by
    rw [hbytes, List.length_append, List.length_replicate] at hlen
    exact hlen
  rw [hbytes]
  congr 2
  omega

/-- A key built from a text prints back as that text, and has 32 bytes. -/
theorem PublicKey_new_toBase58 (x : String) (pk : PublicKey)
    (h : PublicKey.new (.str x) = .ok pk) : pk.toBase58 = x ∧ pk.toBytes.length = 32 := by
  obtain ⟨bytes, hd, hlen, rfl⟩ := PublicKey_new_inv x pk h
  unfold PublicKey.toBase58
  rw [toBytes_of_decode x bytes hd hlen]
  exact ⟨bs58encode_decode x bytes hd, hlen⟩

theorem resolveAndParse_ok_inv (address : String) (pk : PublicKey)
    (h : resolveAndParse address = .ok pk) :
    (endsWith address ".sol" = false → PublicKey.new (.str address) = .ok pk) ∧
    (endsWith address ".sol" = true → ∃ registered,
      knownDomains.lookup (trim (toLowerCase address)) = some registered ∧
      PublicKey.new (.str registered) = .ok pk) := by
  unfold resolveAndParse at h
  constructor
  · intro hsol
    simpa [hsol] using h
  · intro hsol
    simp only [hsol, if_true] at h
    cases hr : resolveSNSDomain address with
    | error e => simp [hr] at h
    | ok v =>
      simp only [hr] at h
      cases hn : PublicKey.new v with
      | error e => simp [hn] at h
      | ok pk' =>
        simp only [hn] at h
        injection h with h
        subst h
        obtain ⟨a, rfl⟩ := resolveSNSDomain_str_of_endsWith address hsol v hr
        refine ⟨a, ?_, hn⟩
        unfold resolveSNSDomain knownDomainsGet at hr
        cases hl : knownDomains.lookup (trim (toLowerCase address)) with
        | none =>
          simp only [hl, not_mem_objectPrototypeKeys _ (endsWith_normalized address hsol)] at hr
          simp at hr
        | some a' =>
          simp only [hl] at hr
          injection hr with hr
          injection hr with hr
          rw [hr]

/-! ### Addresses of the returned record -/

/-- C15: a call that returns a record `info` has `info.originalAddress` equal to
the input and `info.address` equal to the base58 text of the 32-byte key the input
resolved to: the registry address for a `.sol` input, the input itself for a raw
address (which decodes to 32 bytes, and whose decoding encodes back to it). -/
theorem address_canonical (endpoints : List String) (net : Network) (address : String)
    (retryCount : Nat) (s : State) (info : WalletInfo)
    (h : (fetchWalletInfo endpoints net address retryCount s).result = .ok info) :
    info.originalAddress = address ∧
    ∃ pk, resolveAndParse address = .ok pk ∧ info.address = bs58encode pk.toBytes ∧
      pk.toBytes.length = 32 ∧
      (endsWith address ".sol" = true → ∃ registered,
        knownDomains.lookup (trim (toLowerCase address)) = some registered ∧
        info.address = registered) ∧
      (endsWith address ".sol" = false → info.address = address ∧
        ∃ bytes, bs58decode address = .ok bytes ∧ bytes.length = 32 ∧
          bs58encode bytes = address) := by
  obtain ⟨pk, r, hp, _, hq⟩ := fetchWalletInfo_ok_inv endpoints net address info _ retryCount s rfl h
  obtain ⟨balance, S, acc, _, _, _, hinfo⟩ := chainQueries_ok_inv _ _ _ _ hq
  have haddr : info.address = pk.toBase58 := by rw [hinfo]
  have horig : info.originalAddress = address := by rw [hinfo]
  obtain ⟨hraw, hdom⟩ := resolveAndParse_ok_inv address pk hp
  have hlen : pk.toBytes.length = 32 := by
    cases hsol : endsWith address ".sol" with
    | false => exact (PublicKey_new_toBase58 _ pk (hraw hsol)).2
    | true =>
      obtain ⟨a, _, hn⟩ := hdom hsol
      exact (PublicKey_new_toBase58 _ pk hn).2
  refine ⟨horig, pk, hp, haddr, hlen, ?_, ?_⟩
  · intro hsol
    obtain ⟨a, hl, hn⟩ := hdom hsol
    exact ⟨a, hl, by rw [haddr, (PublicKey_new_toBase58 a pk hn).1]⟩
  · intro hsol
    have hn := hraw hsol
    obtain ⟨bytes, hd, hb, _⟩ := PublicKey_new_inv address pk hn
    exact ⟨by rw [haddr, (PublicKey_new_toBase58 address pk hn).1], bytes, hd, hb,
      bs58encode_decode address bytes hd⟩

/-- Witness of `address_canonical`: the input `toly.sol` gives the registry address
as `address` and `toly.sol` as `originalAddress`. -/
theorem address_canonical_witness :
    ∃ info, (fetchWalletInfo (RPC_ENDPOINTS none) (fun _ _ => Connection.empty)
        "toly.sol" 0 State.initial).result = .ok info ∧
      info.originalAddress = "toly.sol" ∧
      info.address = "5tzFkiKscXHK5ZXCGbXZxdw7gTjjD1mBwuoFbhUvuAi9" := by
  obtain ⟨pk, hp⟩ : ∃ pk, resolveAndParse "toly.sol" = .ok pk := ⟨_, rfl⟩
  obtain ⟨info, hq⟩ : ∃ info, chainQueries Connection.empty pk "toly.sol" = .ok info := ⟨_, rfl⟩
  have hres : (fetchWalletInfo (RPC_ENDPOINTS none) (fun _ _ => Connection.empty)
      "toly.sol" 0 State.initial).result = .ok info := by
    rw [fetchWalletInfo_ok _ _ _ _ _ pk info hp hq]
  obtain ⟨horig, pk', _, _, _, hdom, _⟩ := address_canonical (RPC_ENDPOINTS none)
    (fun _ _ => Connection.empty) "toly.sol" 0 State.initial info hres
  obtain ⟨registered, hl, ha⟩ := hdom (by decide)
  have hreg : registered = "5tzFkiKscXHK5ZXCGbXZxdw7gTjjD1mBwuoFbhUvuAi9" := by
    have h' : knownDomains.lookup (trim (toLowerCase "toly.sol")) =
        some "5tzFkiKscXHK5ZXCGbXZxdw7gTjjD1mBwuoFbhUvuAi9" := by decide
    rw [h'] at hl
    injection hl with hl
    exact hl.symm
  exact ⟨info, hres, horig, by rw [ha, hreg]⟩

/-! ### Messages the page matches on -/

/-- C16 fails on the code for the rate-limited class: when every endpoint answers
429, the call throws `Rate limit exceeded on all endpoints. Please try again in a
moment.`, which contains neither `RPC` nor `unavailable`, so the condition of
`App.jsx` line 263 is false for it; the terminal messages of the two other classes
do contain `RPC`. -/
theorem rate_limit_message_unmatched :
    (fetchWalletInfo (RPC_ENDPOINTS none) (Network.failing (mkError "429 Too Many Requests"))
      "5tzFkiKscXHK5ZXCGbXZxdw7gTjjD1mBwuoFbhUvuAi9" 0 State.initial).result =
      .error (mkError "Rate limit exceeded on all endpoints. Please try again in a moment.") ∧
    includes "Rate limit exceeded on all endpoints. Please try again in a moment." "RPC" = false ∧
    includes "Rate limit exceeded on all endpoints. Please try again in a moment." "unavailable"
      = false ∧
    includes (terminalMessage .forbidden) "RPC" = true ∧
    includes (terminalMessage .forbidden) "unavailable" = true ∧
    includes (terminalMessage .network) "RPC" = true := by
  obtain ⟨pk, hp⟩ : ∃ pk, resolveAndParse "5tzFkiKscXHK5ZXCGbXZxdw7gTjjD1mBwuoFbhUvuAi9" = .ok pk :=
    ⟨_, rfl⟩
  have hcls : retryClass (errorMessage (mkError "429 Too Many Requests")) = some .rateLimited := by
    decide
  have hrun := fetchWalletInfo_retries (RPC_ENDPOINTS none)
    (Network.failing (mkError "429 Too Many Requests")) _ pk hp 2 0 State.initial
    (by decide) (by decide)
    (fun j _ => by
      show retryableFailure (chainQueries (Connection.failing _) pk _) = true
      rw [chainQueries_failing]
      simp [retryableFailure, hcls])
  have hend := fetchWalletInfo_exhausted (RPC_ENDPOINTS none)
    (Network.failing (mkError "429 Too Many Requests")) _ (0 + 2)
    ⟨(State.initial.currentEndpointIndex + 2) % (RPC_ENDPOINTS none).length⟩ pk
    hp (chainQueries_failing _ _ _) hcls (by decide)
  refine ⟨?_, by decide, by decide, by decide, by decide, by decide⟩
  rw [hrun, Outcome.after_result, hend]
  rfl

/-! ### Display helpers -/

theorem jsSlice_first (s : List Nat) (n : Nat) (hn : n ≤ s.length) :
    jsSlice s 0 (some (n : Int)) = s.take n := by
  unfold jsSlice
  have h1 : ¬ ((n : Int) < 0) := by omega
  have h2 : min (n : Int) (s.length : Int) = n := by omega
  have h3 : min (0 : Int) (s.length : Int) = 0 := by omega
  simp only [lt_self_iff_false, if_false, h1, h2, h3]
  simp

theorem jsSlice_last (s : List Nat) (n : Nat) (h1 : 1 ≤ n) (hn : n ≤ s.length) :
    jsSlice s (-(n : Int)) none = s.drop (s.length - n) := by
  unfold jsSlice
  have h2 : (-(n : Int)) < 0 := by omega
  have h3 : max ((s.length : Int) + -(n : Int)) 0 = ((s.length - n : Nat) : Int) := by omega
  simp only [h2, if_true, h3, Int.toNat_ofNat]
  apply List.take_of_length_le
  rw [List.length_drop]
  omega

/-- What `formatSignature` and `formatAddress` do for a length of at least 1: a
text of at most `2 * n` code units is returned as it is, a longer one is cut to
its first `n` and last `n` code units around three dots, `2 * n + 3` code units in
all. -/
theorem format_positive_length (s : List Nat) (n : Nat) (h1 : 1 ≤ n) :
    (s.length ≤ 2 * n → formatSignature s (some n) = s ∧ formatAddress s (some n) = s) ∧
    (2 * n < s.length →
      formatSignature s (some n) = s.take n ++ toUnits "..." ++ s.drop (s.length - n) ∧
      formatAddress s (some n) = s.take n ++ toUnits "..." ++ s.drop (s.length - n) ∧
      (formatSignature s (some n)).length = 2 * n + 3) := by
  constructor
  · intro h
    unfold formatSignature formatAddress
    simp only [Option.getD_some]
    have hc : s = [] ∨ s.length ≤ n * 2 := Or.inr (by omega)
    simp only [hc, if_true, and_self]
  · intro h
    have hne : s ≠ [] := by
      intro h0
      rw [h0] at h
      simp at h
    have hf : formatSignature s (some n) =
        s.take n ++ toUnits "..." ++ s.drop (s.length - n) := by
      unfold formatSignature
      simp only [Option.getD_some]
      rw [if_neg (by
        intro hc
        rcases hc with hc | hc
        · exact hne hc
        · omega), jsSlice_first s n (by omega), jsSlice_last s n h1 (by omega)]
    have ha : formatAddress s (some n) =
        s.take n ++ toUnits "..." ++ s.drop (s.length - n) := by
      unfold formatAddress
      simp only [Option.getD_some]
      rw [if_neg (by
        intro hc
        rcases hc with hc | hc
        · exact hne hc
        · omega), jsSlice_first s n (by omega), jsSlice_last s n h1 (by omega)]
    refine ⟨hf, ha, ?_⟩
    rw [hf]
    have h3 : (toUnits "...").length = 3 := by decide
    simp only [List.length_append, List.length_take, List.length_drop, h3]
    omega

/-- C19 fails on the code at `n = 0`: `slice(-0)` is `slice(0)`, the whole text,
so a non-empty text is returned after three dots, in `|s| + 3` code units and not
in `2 * 0 + 3 = 3`, and no character is cut off at either end. With the default
lengths the results have 19 and 15 code units. -/
theorem format_zero_length :
    formatSignature (toUnits "abcdef") (some 0) = toUnits "...abcdef" ∧
    formatAddress (toUnits "abcdef") (some 0) = toUnits "...abcdef" ∧
    (formatSignature (toUnits "abcdef") (some 0)).length = 9 ∧
    2 * 0 < (toUnits "abcdef").length ∧
    formatSignature (toUnits "abcdefghijklmnopqrstuvwxyz") none = toUnits "abcdefgh...stuvwxyz" ∧
    (formatSignature (toUnits "abcdefghijklmnopqrstuvwxyz") none).length = 19 ∧
    formatAddress (toUnits "abcdefghijklmnopqrstuvwxyz") none = toUnits "abcdef...uvwxyz" ∧
    (formatAddress (toUnits "abcdefghijklmnopqrstuvwxyz") none).length = 15 := by
  decide

/-! ### Validation and the parsing step -/

theorem mkError_injective (a b : String) (h : mkError a = mkError b) : a = b := by
  unfold mkError at h
  injection h with h _
  injection h

theorem fetch_error_ne_format (x : String) :
    "Failed to fetch wallet information: " ++ x ≠ "Invalid wallet address format" := by
  intro h
  have := congrArg (fun t => t.data.head?) h
  simp [String.data_append] at this

/-- Once the key is built, every invocation starts by querying the endpoint under
the cursor. -/
theorem fetchWalletInfo_attempts_head (endpoints : List String) (net : Network)
    (address : String) (retryCount : Nat) (s : State) (pk : PublicKey)
    (hp : resolveAndParse address = .ok pk) :
    (fetchWalletInfo endpoints net address retryCount s).attempts.head? =
      some s.currentEndpointIndex := by
  cases hf : retryableFailure (chainQueries (net retryCount s.currentEndpointIndex) pk address) with
  | false =>
    rw [(fetchWalletInfo_stop endpoints net address retryCount s pk hp (Or.inl hf)).2]
    rfl
  | true =>
    by_cases hr : retryCount < endpoints.length - 1
    · rw [fetchWalletInfo_retry endpoints net address retryCount s pk hp hf hr]
      rfl
    · rw [(fetchWalletInfo_stop endpoints net address retryCount s pk hp (Or.inr hr)).2]
      rfl

/-- With the key built, the error `Invalid wallet address format` can only come
from a chain query that failed with a description containing `Invalid public key`. -/
theorem fetchWalletInfo_format_error_inv (endpoints : List String) (net : Network)
    (address : String) (pk : PublicKey) (hp : resolveAndParse address = .ok pk) :
    ∀ (d retryCount : Nat) (s : State), endpoints.length - 1 - retryCount = d →
      (fetchWalletInfo endpoints net address retryCount s).result =
        .error (mkError "Invalid wallet address format") →
      ∃ r e err, chainQueries (net r e) pk address = .error err ∧
        includes (errorMessage err) "Invalid public key" = true := by
  have hstep : ∀ (retryCount : Nat) (s : State),
      (fetchWalletInfo endpoints net address retryCount s).result =
        .error (mkError "Invalid wallet address format") →
      (∃ r e err, chainQueries (net r e) pk address = .error err ∧
        includes (errorMessage err) "Invalid public key" = true) ∨
      (retryCount < endpoints.length - 1 ∧
        (fetchWalletInfo endpoints net address (retryCount + 1)
          (switchToNextEndpoint endpoints s)).result =
          .error (mkError "Invalid wallet address format")) := by
    intro r s h
    rw [fetchWalletInfo_unfold, tryBlock_ok _ hp] at h
    cases hq : chainQueries (net r s.currentEndpointIndex) pk address with
    | ok info => simp [hq] at h
    | error e =>
      simp only [hq] at h
      by_cases h1 : includes (errorMessage e) "Failed to resolve" = true
      · simp only [h1, if_true] at h
        injection h with h
        rw [h] at h1
        exact absurd h1 (by decide)
      · by_cases h2 : includes (errorMessage e) "Invalid public key" = true
        · exact Or.inl ⟨r, s.currentEndpointIndex, e, hq, h2⟩
        · cases hc : retryClass (errorMessage e) with
          | none =>
            simp only [h1, h2, hc, if_false] at h
            injection h with h
            exact absurd (mkError_injective _ _ h) (fetch_error_ne_format _)
          | some c =>
            by_cases hr : r < endpoints.length - 1
            · simp only [h1, h2, hc, hr, if_true, if_false, Outcome.after_result] at h
              exact Or.inr ⟨hr, h⟩
            · simp only [h1, h2, hc, hr, if_false] at h
              injection h with h
              have := mkError_injective _ _ h
              cases c <;> exact absurd this (by decide)
  intro d
  induction d with
  | zero =>
    intro r s hd h
    rcases hstep r s h with hw | ⟨hr, _⟩
    · exact hw
    · omega
  | succ d ih =>
    intro r s hd h
    rcases hstep r s h with hw | ⟨hr, h'⟩
    · exact hw
    · exact ih (r + 1) (switchToNextEndpoint endpoints s) (by omega) h'

theorem validateSolanaAddress_valid_inv (s : String)
    (h : (validateSolanaAddress s).isValid = true) :
    ((validateSolanaAddress s).isSNS = some true → endsWith (trim s) ".sol" = true) ∧
    ((validateSolanaAddress s).isSNS = some false →
      endsWith (trim s) ".sol" = false ∧ ∃ pk, PublicKey.new (.str (trim s)) = .ok pk) := by
  unfold validateSolanaAddress at h ⊢
  by_cases h0 : s = "" ∨ trim s = ""
  · simp [h0] at h
  · simp only [h0, if_false] at h ⊢
    cases hsol : endsWith (trim s) ".sol" with
    | true => simp [hsol]
    | false =>
      simp only [hsol] at h ⊢
      by_cases hlen : jsLength (trim s) < 32 ∨ jsLength (trim s) > 44
      · simp [hlen] at h
      · simp only [hlen, if_false] at h ⊢
        cases hd : bs58decode (trim s) with
        | error e => simp [hd] at h
        | ok decoded =>
          simp only [hd] at h ⊢
          by_cases hl : decoded.length = 32
          · cases hn : PublicKey.new (.str (trim s)) with
            | error e => simp [hl, hn] at h
            | ok pk => simp [hl, hn]
          · simp [hl] at h

/-- C20, as stated, fails: a validated raw address whose key is built can still end
in `Invalid wallet address format`, namely when the chain query itself fails with a
description containing `Invalid public key` (line 179 tests every failure of the
`try` block); the balance query was reached. -/
theorem validated_format_error_counterexample :
    validateSolanaAddress "5tzFkiKscXHK5ZXCGbXZxdw7gTjjD1mBwuoFbhUvuAi9" =
      ⟨true, none, some false⟩ ∧
    fetchWalletInfo (RPC_ENDPOINTS none)
        (Network.failing (mkError "Invalid param: Invalid public key"))
        (trim "5tzFkiKscXHK5ZXCGbXZxdw7gTjjD1mBwuoFbhUvuAi9") 0 State.initial =
      ⟨.error (mkError "Invalid wallet address format"), State.initial, [0]⟩ := by
  refine ⟨by decide, ?_⟩
  obtain ⟨pk, hp⟩ : ∃ pk, resolveAndParse
      (trim "5tzFkiKscXHK5ZXCGbXZxdw7gTjjD1mBwuoFbhUvuAi9") = .ok pk := ⟨_, rfl⟩
  rw [fetchWalletInfo_unfold, tryBlock_ok _ hp, queriedEndpoints_ok _ hp]
  have hq : chainQueries (Network.failing (mkError "Invalid param: Invalid public key") 0
      State.initial.currentEndpointIndex) pk (trim "5tzFkiKscXHK5ZXCGbXZxdw7gTjjD1mBwuoFbhUvuAi9") =
      .error (mkError "Invalid param: Invalid public key") := rfl
  rw [hq]
  have h1 : includes (errorMessage (mkError "Invalid param: Invalid public key"))
      "Failed to resolve" = false := by decide
  have h2 : includes (errorMessage (mkError "Invalid param: Invalid public key"))
      "Invalid public key" = true := by decide
  simp only [h1, h2]
  rfl

/-- C20 (amended): for an input validated as a raw address, the trimmed input does
not end in `.sol` and its key is built without error, so every call on it reaches
the balance query on the endpoint under the cursor, and it throws `Invalid wallet
address format` only if a chain query fails with a description containing
`Invalid public key`; for an input validated as a domain, the trimmed input ends
in `.sol`, which sends the call into the resolution branch. -/
theorem validation_sound (s : String) (h : (validateSolanaAddress s).isValid = true) :
    ((validateSolanaAddress s).isSNS = some false →
      endsWith (trim s) ".sol" = false ∧
      ∃ pk, PublicKey.new (.str (trim s)) = .ok pk ∧ resolveAndParse (trim s) = .ok pk ∧
        ∀ (endpoints : List String) (net : Network) (retryCount : Nat) (st : State),
          (fetchWalletInfo endpoints net (trim s) retryCount st).attempts.head? =
            some st.currentEndpointIndex ∧
          ((fetchWalletInfo endpoints net (trim s) retryCount st).result =
              .error (mkError "Invalid wallet address format") →
            ∃ r e err, chainQueries (net r e) pk (trim s) = .error err ∧
              includes (errorMessage err) "Invalid public key" = true)) ∧
    ((validateSolanaAddress s).isSNS = some true →
      endsWith (trim s) ".sol" = true ∧
      resolveAndParse (trim s) =
        match resolveSNSDomain (trim s) with
        | .error error =>
          .error (mkError ("Failed to resolve " ++ trim s ++ ": " ++ messageText error))
        | .ok resolvedAddress =>
          match PublicKey.new resolvedAddress with
          | .error error =>
            .error (mkError ("Failed to resolve " ++ trim s ++ ": " ++ messageText error))
          | .ok publicKey => .ok publicKey) := by
  obtain ⟨hdom, hraw⟩ := validateSolanaAddress_valid_inv s h
  constructor
  · intro hs
    obtain ⟨hsol, pk, hn⟩ := hraw hs
    have hp : resolveAndParse (trim s) = .ok pk := by
      unfold resolveAndParse
      simp [hsol, hn]
    refine ⟨hsol, pk, hn, hp, ?_⟩
    intro endpoints net retryCount st
    exact ⟨fetchWalletInfo_attempts_head endpoints net (trim s) retryCount st pk hp,
      fetchWalletInfo_format_error_inv endpoints net (trim s) pk hp _ retryCount st rfl⟩
  · intro hs
    have hsol := hdom hs
    refine ⟨hsol, ?_⟩
    conv_lhs => unfold resolveAndParse
    rw [if_pos hsol]

/-- Witness of `validation_sound`: a valid address between blanks. -/
theorem validation_sound_witness :
    (validateSolanaAddress " GThUX1Atko4tqhN2NaiTazWSeFWMuiUvfFnyJyUghFMJ ").isValid = true ∧
    (validateSolanaAddress " GThUX1Atko4tqhN2NaiTazWSeFWMuiUvfFnyJyUghFMJ ").isSNS = some false ∧
    endsWith (trim " GThUX1Atko4tqhN2NaiTazWSeFWMuiUvfFnyJyUghFMJ ") ".sol" = false ∧
    ∃ pk, resolveAndParse (trim " GThUX1Atko4tqhN2NaiTazWSeFWMuiUvfFnyJyUghFMJ ") = .ok pk := by
  have h := (validation_sound " GThUX1Atko4tqhN2NaiTazWSeFWMuiUvfFnyJyUghFMJ " (by decide)).1
    (by decide)
  obtain ⟨hsol, pk, _, hp, _⟩ := h
  exact ⟨by decide, by decide, hsol, pk, hp⟩

end SolanaUtils
